import Mathlib

/-!
Shallow embedding of the layered-image data model and viewer synchronization
core of the `vision` repository.

Python objects (`Image`, `ImageLayer`) are mutable and aliased (the layer list
and the name index of a `LayeredImage` hold references to the same layer
objects), so the embedding uses explicit heaps: association lists from numeric
object ids to object states.  Every signal emission is recorded in a trace
entry that pairs the emitted event with a snapshot of the whole state at the
moment of emission, so that ordering claims about observers can be stated.
Fallible Python operations (those that can raise) return `Option`.
-/

namespace Vision

/-! ### Python dict / attribute heaps as association lists

`dictSet` mirrors `d[k] = v` (replace in place when the key is present,
append otherwise); `dictDel` mirrors `del d[k]` (callers check presence first,
as the Python code would raise `KeyError`); `dictGet` mirrors `d.get(k)`. -/

def dictGet {κ α : Type} [DecidableEq κ] (d : List (κ × α)) (k : κ) : Option α :=
  match d with
  | [] => none
  | e :: rest => if e.1 = k then some e.2 else dictGet rest k

def dictSet {κ α : Type} [DecidableEq κ] (d : List (κ × α)) (k : κ) (v : α) : List (κ × α) :=
  match d with
  | [] => [(k, v)]
  | e :: rest => if e.1 = k then (k, v) :: rest else e :: dictSet rest k v

def dictDel {κ α : Type} [DecidableEq κ] (d : List (κ × α)) (k : κ) : List (κ × α) :=
  match d with
  | [] => []
  | e :: rest => if e.1 = k then rest else e :: dictDel rest k

/-! ### Core data model (vision-core) -/

/-- Modelled from the spec: the `Image` base class (vision-core `image/base.py`)
is not under `src/`; per §3 an Image owns `pixels` (2D array of samples, here a
row list), an optional `palette` and an optional source `path` (here a list of
path components). Palettes are shared by reference, so a palette is identified
by a numeric id. -/
structure Image where
  pixels : List (List Nat)
  palette : Option Nat
  path : Option (List String)
deriving DecidableEq, Repr

/-- Modelled from the spec: the core `Visibility` class is not under `src/`;
per §3 it is `{visible : bool, opacity : float in [0,1]}`, with defaults
`visible = True`, `opacity = 1` (matching the widget-side `Visibility`). -/
structure Visibility where
  visible : Bool
  opacity : ℚ
deriving DecidableEq, Repr

def Visibility.default : Visibility :=
  { visible := true, opacity := 1 }

/-- State of one `ImageLayer` object (vision-core `image/layered.py`).
`connectedPixelsModified` / `connectedShapeChanged` record which image's
`pixels_modified` / `shape_changed` signals are currently connected to the
layer's republishing signals (`None` = not connected). -/
structure ImageLayer where
  id : Nat
  name : String
  image : Option Nat
  path : Option (List String)
  palette : Option Nat
  visibility : Visibility
  connectedPixelsModified : Option Nat
  connectedShapeChanged : Option Nat
deriving DecidableEq, Repr

/-- The signals emitted by the core model. -/
inductive CoreEvent
  | layerAdding (layer : Nat) (index : Nat)
  | layerAdded (layer : Nat) (index : Nat)
  | layerRemoving (layer : Nat) (index : Nat)
  | layerRemoved (layer : Nat) (index : Nat)
  | imageUpdated (layer : Nat) (image : Option Nat)
  | pixelsModified (image : Nat)
  | layerPixelsModified (layer : Nat)
deriving DecidableEq, Repr

/-- Whole-world state: the image and layer heaps, the `max_id` counters, and
the single `LayeredImage` under consideration (`layers` = `self._layers`,
`layerByName` = `self._layer_by_name`). -/
structure CoreState where
  imageHeap : List (Nat × Image)
  layerHeap : List (Nat × ImageLayer)
  nextImageId : Nat
  nextLayerId : Nat
  layers : List Nat
  layerByName : List (String × Nat)
deriving DecidableEq, Repr

/-- A trace entry pairs an emitted event with the state observers see at the
moment of emission. -/
abbrev CoreTrace := List (CoreEvent × CoreState)

def initState : CoreState :=
  { imageHeap := [], layerHeap := [], nextImageId := 0, nextLayerId := 0,
    layers := [], layerByName := [] }

/-- Modelled from the spec: `Image(pixels, palette)` construction (the Image
class is not under `src/`); a freshly constructed image has no path. -/
def newImage (s : CoreState) (pixels : List (List Nat)) (palette : Option Nat) :
    CoreState × Nat :=
  let iid := s.nextImageId
  ({ s with
      imageHeap := dictSet s.imageHeap iid { pixels := pixels, palette := palette, path := none },
      nextImageId := iid + 1 },
   iid)

/-- `ImageLayer.image` property setter (`layered.py` lines 62–79): no-op when
the new value equals the current one; otherwise disconnect the old image's
signals, install the new reference, emit `image_updated` (via
`_on_image_updated`), and only after the emission update the mirrored
`path`/`palette` and connect the new image's signals (nothing of this tail
happens when the new value is `None`). -/
def setImage (s : CoreState) (lid : Nat) (value : Option Nat) : CoreState × CoreTrace :=
  match dictGet s.layerHeap lid with
  | none => (s, [])
  | some layer =>
    if layer.image = value then (s, [])
    else
      let layer1 :=
        if layer.image.isSome then
          { layer with connectedPixelsModified := none, connectedShapeChanged := none }
        else layer
      let layer2 := { layer1 with image := value }
      let s2 := { s with layerHeap := dictSet s.layerHeap lid layer2 }
      let tr : CoreTrace := [(CoreEvent.imageUpdated lid value, s2)]
      match value with
      | none => (s2, tr)
      | some iid =>
        match dictGet s2.imageHeap iid with
        | none => (s2, tr)
        | some img =>
          let layer3 :=
            { layer2 with
              path := match img.path with
                      | some p => some p.dropLast
                      | none => layer2.path,
              palette := img.palette,
              connectedPixelsModified := some iid,
              connectedShapeChanged := some iid }
          ({ s2 with layerHeap := dictSet s2.layerHeap lid layer3 }, tr)

/-- `ImageLayer.__init__`: allocate `id` from the class-level `max_id`
counter, run the `image` setter (which may emit `image_updated`), then assign
`name` (defaulting to `"Layer {id}"` when empty) and `visibility`. -/
def mkImageLayer (s : CoreState) (image : Option Nat) (name : String)
    (visibility : Option Visibility) : CoreState × Nat × CoreTrace :=
  let lid := s.nextLayerId
  let layer0 : ImageLayer :=
    { id := lid, name := "", image := none, path := none, palette := none,
      visibility := Visibility.default,
      connectedPixelsModified := none, connectedShapeChanged := none }
  let s1 := { s with layerHeap := dictSet s.layerHeap lid layer0, nextLayerId := lid + 1 }
  let r := setImage s1 lid image
  let s2 := r.1
  let tr := r.2
  let s3 :=
    match dictGet s2.layerHeap lid with
    | none => s2
    | some l =>
      { s2 with
        layerHeap := dictSet s2.layerHeap lid
          { l with
            name := if name = "" then "Layer " ++ toString lid else name,
            visibility := visibility.getD Visibility.default } }
  (s3, lid, tr)

/-- `LayeredImage.layer_by_name`. -/
def layerByNameGet (s : CoreState) (name : String) : Option Nat :=
  dictGet s.layerByName name

/-- `LayeredImage.add_layer`: emit `layer_adding`, append to `_layers`, set
`_layer_by_name[layer.name]`, emit `layer_added`.  `None` models the
(unreachable in the source) case of an id not backed by an object. -/
def addLayer (s : CoreState) (lid : Nat) : Option (CoreState × CoreTrace) :=
  match dictGet s.layerHeap lid with
  | none => none
  | some layer =>
    let layerIndex := s.layers.length
    let ev1 := (CoreEvent.layerAdding lid layerIndex, s)
    let s1 := { s with layers := s.layers ++ [lid] }
    let s2 := { s1 with layerByName := dictSet s1.layerByName layer.name lid }
    some (s2, [ev1, (CoreEvent.layerAdded lid layerIndex, s2)])

/-- `LayeredImage.add_layer_from_image`. -/
def addLayerFromImage (s : CoreState) (image : Option Nat) (name : String)
    (visibility : Option Visibility) : Option (CoreState × Nat × CoreTrace) :=
  let r := mkImageLayer s image name visibility
  match addLayer r.1 r.2.1 with
  | none => none
  | some (s2, tr2) => some (s2, r.2.1, r.2.2 ++ tr2)

/-- `LayeredImage.add_layer_or_modify_image`. -/
def addLayerOrModifyImage (s : CoreState) (name : String) (image : Nat) :
    Option (CoreState × Nat × CoreTrace) :=
  match dictGet s.layerByName name with
  | none => addLayerFromImage s (some image) name none
  | some lid =>
    let r := setImage s lid (some image)
    some (r.1, lid, r.2)

/-- Layers whose `image_pixels_modified` republishing signal is connected to
image `iid`, in heap order. -/
def connectedLayersOf (s : CoreState) (iid : Nat) : List Nat :=
  (s.layerHeap.filter (fun e => e.2.connectedPixelsModified = some iid)).map (fun e => e.1)

/-- Modelled from the spec: `Image.emit_pixels_modified` (the Image class is
not under `src/`) emits `pixels_modified`, which every connected `ImageLayer`
republishes as `image_pixels_modified` (§3, §6). -/
def coreEmitPixelsModified (s : CoreState) (iid : Nat) : CoreTrace :=
  (CoreEvent.pixelsModified iid, s) ::
    (connectedLayersOf s iid).map (fun lid => (CoreEvent.layerPixelsModified lid, s))

/-- `LayeredImage.add_layer_or_modify_pixels`: create a new layer when the
name is absent; install a fresh image when the layer has none; otherwise
replace the existing image's pixel buffer and emit `pixels_modified`. -/
def addLayerOrModifyPixels (s : CoreState) (name : String) (pixels : List (List Nat))
    (palette : Option Nat) (visibility : Option Visibility) :
    Option (CoreState × Nat × CoreTrace) :=
  match dictGet s.layerByName name with
  | none =>
    let r := newImage s pixels palette
    addLayerFromImage r.1 (some r.2) name visibility
  | some lid =>
    match dictGet s.layerHeap lid with
    | none => none
    | some layer =>
      match layer.image with
      | none =>
        let r := newImage s pixels palette
        let r2 := setImage r.1 lid (some r.2)
        some (r2.1, lid, r2.2)
      | some iid =>
        match dictGet s.imageHeap iid with
        | none => none
        | some img =>
          let s1 := { s with imageHeap := dictSet s.imageHeap iid { img with pixels := pixels } }
          some (s1, lid, coreEmitPixelsModified s1 iid)

/-- `LayeredImage.remove_layer`: `self._layers.index(layer)` (raises when the
layer is not a member), emit `layer_removing`, remove the first occurrence
from `_layers`, `del self._layer_by_name[layer.name]` (raises when the name is
absent), emit `layer_removed`. -/
def removeLayer (s : CoreState) (lid : Nat) : Option (CoreState × CoreTrace) :=
  match s.layers.findIdx? (fun x => x == lid) with
  | none => none
  | some layerIndex =>
    match dictGet s.layerHeap lid with
    | none => none
    | some layer =>
      let ev1 := (CoreEvent.layerRemoving lid layerIndex, s)
      let s1 := { s with layers := s.layers.erase lid }
      match dictGet s1.layerByName layer.name with
      | none => none
      | some _ =>
        let s2 := { s1 with layerByName := dictDel s1.layerByName layer.name }
        some (s2, [ev1, (CoreEvent.layerRemoved lid layerIndex, s2)])

/-! ### Widget-side model (vision-widgets `viewers/image/layered/base.py`)

The widget world combines one `_LayeredImageItem` (with its `_ImageItemLayer`
objects) and its owning `LayeredImageViewer`.  `pixelsModifiedSubs` is the
multiset of live `image.pixels_modified → layer._on_image_updated`
connections, in connection order; `activeImageUpdatedSubs` is the multiset of
`layer.image_updated → viewer._on_active_layer_image_updated` connections. -/

/-- Modelled from the spec: `FlatImage` (vision-core) is not under `src/`;
per §3 it owns pixels, an optional palette (here an index→RGBA table) and a
source path. -/
structure WImage where
  pixels : List (List Nat)
  palette : Option (List (Nat × List Nat))
  path : List String
deriving DecidableEq, Repr

/-- State of one `_ImageItemLayer` object. -/
structure WLayer where
  id : Nat
  name : String
  image : Option Nat
  visible : Bool
  opacity : ℚ
  displayedImageCache : Option (List (List (List Nat)))
deriving DecidableEq, Repr

inductive WEvent
  | imageUpdated (layer : Nat) (image : Option Nat)
  | activeLayerChanged (oldLayer newLayer : Option Nat)
  | updateRequested
deriving DecidableEq, Repr

structure WWorld where
  imageHeap : List (Nat × WImage)
  layerHeap : List (Nat × WLayer)
  nextLayerId : Nat
  pixelsModifiedSubs : List (Nat × Nat)
  itemLayers : List Nat
  namesLayers : List (String × Nat)
  activeLayer : Option Nat
  activeImageUpdatedSubs : List Nat
deriving DecidableEq, Repr

def initWWorld : WWorld :=
  { imageHeap := [], layerHeap := [], nextLayerId := 0, pixelsModifiedSubs := [],
    itemLayers := [], namesLayers := [], activeLayer := none, activeImageUpdatedSubs := [] }

/-- `_ImageItemLayer._on_image_updated`: drop the displayed-image cache and
emit `image_updated` with the layer's current image. -/
def wOnImageUpdated (w : WWorld) (lid : Nat) : WWorld × List WEvent :=
  match dictGet w.layerHeap lid with
  | none => (w, [])
  | some layer =>
    ({ w with layerHeap := dictSet w.layerHeap lid { layer with displayedImageCache := none } },
     [WEvent.imageUpdated lid layer.image])

/-- `_ImageItemLayer.image` setter (`base.py` lines 44–50): when the value
differs, install it, run `_on_image_updated`, and connect the new image's
`pixels_modified` — without ever disconnecting the previous image's signal.
`None` models the `AttributeError` raised on connecting through an absent
image. -/
def wSetImage (w : WWorld) (lid : Nat) (value : Option Nat) : Option (WWorld × List WEvent) :=
  match dictGet w.layerHeap lid with
  | none => none
  | some layer =>
    if layer.image = value then some (w, [])
    else
      let layer1 := { layer with image := value }
      let w1 := { w with layerHeap := dictSet w.layerHeap lid layer1 }
      let r := wOnImageUpdated w1 lid
      match value with
      | none => none
      | some iid =>
        some ({ r.1 with pixelsModifiedSubs := r.1.pixelsModifiedSubs ++ [(iid, lid)] }, r.2)

/-- Layers subscribed to image `iid`'s `pixels_modified`, in connection
order (with multiplicity). -/
def wSubscribersOf (w : WWorld) (iid : Nat) : List Nat :=
  (w.pixelsModifiedSubs.filter (fun e => e.1 == iid)).map (fun e => e.2)

def runPixelsModifiedHandlers (w : WWorld) (lids : List Nat) : WWorld × List WEvent :=
  match lids with
  | [] => (w, [])
  | lid :: rest =>
    let r1 := wOnImageUpdated w lid
    let r2 := runPixelsModifiedHandlers r1.1 rest
    (r2.1, r1.2 ++ r2.2)

/-- Deliver image `iid`'s `pixels_modified` to every connected handler. -/
def wEmitPixelsModified (w : WWorld) (iid : Nat) : WWorld × List WEvent :=
  runPixelsModifiedHandlers w (wSubscribersOf w iid)

/-- Modelled from the spec: `Image.set_pixels` (§4.1) replaces the buffer and
always emits a `pixels_modified` notification. -/
def wSetPixels (w : WWorld) (iid : Nat) (pixels : List (List Nat)) :
    Option (WWorld × List WEvent) :=
  match dictGet w.imageHeap iid with
  | none => none
  | some img =>
    let w1 := { w with imageHeap := dictSet w.imageHeap iid { img with pixels := pixels } }
    some (wEmitPixelsModified w1 iid)

/-- Modelled from the spec: `image_converter.converted_to_rgba` (§4.5 case b)
replicates grayscale samples into RGB channels at full alpha. -/
def convertedToRgba (pixels : List (List Nat)) : List (List (List Nat)) :=
  pixels.map (fun row => row.map (fun p => [p, p, p, 255]))

/-- Modelled from the spec: palette lookup, unmapped indices render fully
transparent (§4.2). -/
def paletteColor (pal : List (Nat × List Nat)) (idx : Nat) : List Nat :=
  (dictGet pal idx).getD [0, 0, 0, 0]

/-- Modelled from the spec: `FlatImage.colored_premultiplied_array` (§4.5
case a) maps each pixel index through the palette. -/
def coloredPremultiplied (pixels : List (List Nat)) (pal : List (Nat × List Nat)) :
    List (List (List Nat)) :=
  pixels.map (fun row => row.map (paletteColor pal))

/-- The bitmap `_ImageItemLayer.displayed_image` computes on a cache miss. -/
def wRender (img : WImage) : List (List (List Nat)) :=
  match img.palette with
  | none => convertedToRgba img.pixels
  | some pal => coloredPremultiplied img.pixels pal

/-- `_ImageItemLayer.displayed_image` (`base.py` lines 62–78): return the
cache when present, otherwise render from the current image and retain the
result.  `None` models the `AttributeError` on an absent image. -/
def wDisplayedImage (w : WWorld) (lid : Nat) :
    Option (WWorld × List (List (List Nat))) :=
  match dictGet w.layerHeap lid with
  | none => none
  | some layer =>
    match layer.displayedImageCache with
    | some b => some (w, b)
    | none =>
      match layer.image with
      | none => none
      | some iid =>
        match dictGet w.imageHeap iid with
        | none => none
        | some img =>
          let b := wRender img
          some ({ w with
                    layerHeap := dictSet w.layerHeap lid
                      { layer with displayedImageCache := some b } },
                b)

/-- `_ImageItemLayer.__init__`: allocate the id, run the `image` setter, then
assign the name (defaulting to `"Layer {id}"` when empty). -/
def wMkLayer (w : WWorld) (image : Option Nat) (name : String) (visible : Bool) (opacity : ℚ) :
    Option (WWorld × Nat × List WEvent) :=
  let lid := w.nextLayerId
  let layer0 : WLayer :=
    { id := lid, name := "", image := none, visible := visible, opacity := opacity,
      displayedImageCache := none }
  let w1 := { w with layerHeap := dictSet w.layerHeap lid layer0, nextLayerId := lid + 1 }
  match wSetImage w1 lid image with
  | none => none
  | some (w2, evs) =>
    match dictGet w2.layerHeap lid with
    | none => none
    | some l =>
      some ({ w2 with
                layerHeap := dictSet w2.layerHeap lid
                  { l with name := if name = "" then "Layer " ++ toString lid else name } },
            lid, evs)

/-- `LayeredImageViewer._on_active_layer_changed` (`base.py` lines 204–208):
disconnect the previous active layer's `image_updated` from the viewer's
handler and connect the new one's. -/
def wOnActiveLayerChanged (w : WWorld) (oldLayer newLayer : Option Nat) : WWorld :=
  let subs1 :=
    match oldLayer with
    | none => w.activeImageUpdatedSubs
    | some o => w.activeImageUpdatedSubs.erase o
  let subs2 :=
    match newLayer with
    | none => subs1
    | some n => subs1 ++ [n]
  { w with activeImageUpdatedSubs := subs2 }

/-- `_LayeredImageItem.add_layer` (`base.py` lines 101–118): construct the
layer, append it, record it under the passed `name`, and only when it is the
first layer set `active_layer`, emit `active_layer_changed` (delivered to the
viewer's re-subscription handler) and update the bounding rect (which reads
`layers[0].displayed_image`). -/
def wAddLayer (w : WWorld) (image : Option Nat) (name : String) (visible : Bool) (opacity : ℚ) :
    Option (WWorld × Nat × List WEvent) :=
  match wMkLayer w image name visible opacity with
  | none => none
  | some (w1, lid, evs1) =>
    let w2 := { w1 with
                  itemLayers := w1.itemLayers ++ [lid],
                  namesLayers := dictSet w1.namesLayers name lid }
    if w2.itemLayers.length = 1 then
      let w3 := { w2 with activeLayer := some lid }
      let w4 := wOnActiveLayerChanged w3 none (some lid)
      match wDisplayedImage w4 lid with
      | none => none
      | some (w5, _) =>
        some (w5, lid, evs1 ++ [WEvent.activeLayerChanged none (some lid)])
    else
      some (w2, lid, evs1 ++ [WEvent.updateRequested])

/-! ### Coordinate mapping (vision-widgets `graphics_view.py` / viewer)

`LayeredImageViewer.viewport_pos_to_image_pixel_coords` composes Qt coordinate
transforms; Qt itself is an external collaborator, so the transforms are
modelled per the spec (§4.6) as an invertible affine view transform (uniform
scale plus translation, exact over ℚ) and the item translation. -/

/-- Modelled from the spec: the view's transform, a uniform `scale` with a
scroll translation `(dx, dy)`; `mapToScene` is its inverse. -/
structure ViewTransform where
  scale : ℚ
  dx : ℚ
  dy : ℚ
deriving DecidableEq, Repr

/-- `QGraphicsView.mapToScene` for the modelled transform (points are
`(x, y)`). -/
def viewportToScene (t : ViewTransform) (p : ℚ × ℚ) : ℚ × ℚ :=
  ((p.1 + t.dx) / t.scale, (p.2 + t.dy) / t.scale)

/-- The inverse direction, scene to viewport. -/
def sceneToViewport (t : ViewTransform) (p : ℚ × ℚ) : ℚ × ℚ :=
  (p.1 * t.scale - t.dx, p.2 * t.scale - t.dy)

/-- `QGraphicsItem.mapFromScene` for an item translated to `origin`. -/
def sceneToItem (origin : ℚ × ℚ) (p : ℚ × ℚ) : ℚ × ℚ :=
  (p.1 - origin.1, p.2 - origin.2)

def itemToScene (origin : ℚ × ℚ) (p : ℚ × ℚ) : ℚ × ℚ :=
  (p.1 + origin.1, p.2 + origin.2)

/-- Floor of a rational, computed on the normalized representation
(`Int.fdiv` is floor division). -/
def ratFloor (q : ℚ) : ℤ :=
  Int.fdiv q.num q.den

/-- Python's builtin `round`: round half to even. -/
def pyRound (q : ℚ) : ℤ :=
  if q - ratFloor q < 1/2 then ratFloor q
  else if 1/2 < q - ratFloor q then ratFloor q + 1
  else if ratFloor q % 2 = 0 then ratFloor q else ratFloor q + 1

/-- `LayeredImageViewer.viewport_pos_to_image_pixel_coords` (`base.py` lines
190–193): map the viewport point to the scene, then into the layered-image
item, and return `[round(y), round(x)]`. -/
def viewportPosToImagePixelCoords (t : ViewTransform) (origin : ℚ × ℚ) (p : ℚ × ℚ) : List ℤ :=
  let scenePos := viewportToScene t p
  let itemPos := sceneToItem origin scenePos
  [pyRound itemPos.2, pyRound itemPos.1]

/-- The center of pixel `(row, col)` in item coordinates: the pixel occupies
the unit square `[col, col+1) × [row, row+1)`. -/
def pixelCenter (row col : ℕ) : ℚ × ℚ :=
  ((col : ℚ) + 1/2, (row : ℚ) + 1/2)

/-- Forward map: the center of pixel `(row, col)` to viewport coordinates. -/
def imagePixelCenterToViewportPos (t : ViewTransform) (origin : ℚ × ℚ) (row col : ℕ) : ℚ × ℚ :=
  sceneToViewport t (itemToScene origin (pixelCenter row col))

/-! ### Invariant and call-sequence step relation for the name index -/

/-- The name of the layer object behind id `lid`. -/
def layerName (s : CoreState) (lid : Nat) : Option String :=
  (dictGet s.layerHeap lid).map (fun l => l.name)

/-- Agreement of the name index with the ordered layer sequence, plus
well-formedness of the layer heap: the index entries mirror the sequence
pointwise, each entry records its layer's actual name, index keys are
distinct, and heap keys are distinct and below the `max_id` counter. -/
structure NameIndexInv (s : CoreState) : Prop where
  mirror : s.layerByName.map Prod.snd = s.layers
  names : ∀ e ∈ s.layerByName, layerName s e.2 = some e.1
  namesNodup : (s.layerByName.map Prod.fst).Nodup
  heapBound : ∀ e ∈ s.layerHeap, e.1 < s.nextLayerId
  heapKeysNodup : (s.layerHeap.map Prod.fst).Nodup

/-- One call against the `LayeredImage`: constructing a layer object,
`add_layer` of a heap-backed layer whose name is not already indexed, or
`remove_layer`. -/
inductive GoodStep : CoreState → CoreState → Prop
  | construct (s : CoreState) (image : Option Nat) (nm : String) (vis : Option Visibility)
      (s' : CoreState) (lid : Nat) (tr : CoreTrace)
      (hstep : mkImageLayer s image nm vis = (s', lid, tr)) :
      GoodStep s s'
  | add (s : CoreState) (lid : Nat) (layer : ImageLayer) (s' : CoreState) (tr : CoreTrace)
      (hlayer : dictGet s.layerHeap lid = some layer)
      (hfresh : dictGet s.layerByName layer.name = none)
      (hstep : addLayer s lid = some (s', tr)) :
      GoodStep s s'
  | remove (s : CoreState) (lid : Nat) (s' : CoreState) (tr : CoreTrace)
      (hstep : removeLayer s lid = some (s', tr)) :
      GoodStep s s'

/-! ### Concrete scenario states -/

/-- Two layer objects carrying the same name `"a"` (C1/C2 scenarios). -/
def dupStep1 : CoreState × Nat × CoreTrace :=
  mkImageLayer initState none "a" none

def dupState1 : CoreState :=
  ((addLayer dupStep1.1 dupStep1.2.1).map Prod.fst).getD initState

def dupStep2 : CoreState × Nat × CoreTrace :=
  mkImageLayer dupState1 none "a" none

def dupAddResult : Option (CoreState × CoreTrace) :=
  addLayer dupStep2.1 dupStep2.2.1

def dupState2 : CoreState :=
  (dupAddResult.map Prod.fst).getD initState

/-- C4 scenario: image 0 with palette 7, image 1 with palette 9, a layer
holding image 0, then the image replaced by image 1, then by `None`. -/
def c4Init : CoreState × Nat :=
  newImage initState [[1]] (some 7)

def c4Init2 : CoreState × Nat :=
  newImage c4Init.1 [[2]] (some 9)

def c4Mk : CoreState × Nat × CoreTrace :=
  mkImageLayer c4Init2.1 (some c4Init.2) "L" none

def c4Replace : CoreState × CoreTrace :=
  setImage c4Mk.1 c4Mk.2.1 (some c4Init2.2)

def c4ToNone : CoreState × CoreTrace :=
  setImage c4Replace.1 c4Mk.2.1 none

/-- C5 scenario: a 50×50 uint8 base layer `"image"`, then
`add_layer_or_modify_image("mask", ...)` twice with different content. -/
def c5Base : CoreState × Nat :=
  newImage initState (List.replicate 50 (List.replicate 50 0)) none

def c5AddBase : Option (CoreState × Nat × CoreTrace) :=
  addLayerFromImage c5Base.1 (some c5Base.2) "image" none

def c5S1 : CoreState :=
  (c5AddBase.map Prod.fst).getD initState

def c5Mask1 : CoreState × Nat :=
  newImage c5S1 [[1]] none

def c5Call1 : Option (CoreState × Nat × CoreTrace) :=
  addLayerOrModifyImage c5Mask1.1 "mask" c5Mask1.2

def c5S2 : CoreState :=
  (c5Call1.map Prod.fst).getD initState

def c5Mask2 : CoreState × Nat :=
  newImage c5S2 [[2]] none

/-- C3 scenario: one fresh layer `"x"` over the empty state. -/
def c3Mk : CoreState × Nat × CoreTrace :=
  mkImageLayer initState none "x" none

def c3Added : Option (CoreState × CoreTrace) :=
  addLayer c3Mk.1 c3Mk.2.1

def c3S1 : CoreState :=
  ((addLayer c3Mk.1 c3Mk.2.1).map Prod.fst).getD initState

def c3AddTr : CoreTrace :=
  ((addLayer c3Mk.1 c3Mk.2.1).map Prod.snd).getD []

def c3RemTr : CoreTrace :=
  ((removeLayer c3S1 c3Mk.2.1).map Prod.snd).getD []

def c3S2 : CoreState :=
  ((removeLayer c3S1 c3Mk.2.1).map Prod.fst).getD initState

/-- The layer object the C3 scenario constructs. -/
def c3Layer : ImageLayer :=
  { id := 0, name := "x", image := none, path := none, palette := none,
    visibility := { visible := true, opacity := 1 },
    connectedPixelsModified := none, connectedShapeChanged := none }

/-- C10 scenario: a layer `"m"` holding an image and a layer `"n"` holding
none. -/
def c10Base : CoreState × Nat :=
  newImage initState [[3]] none

def c10Add1 : Option (CoreState × Nat × CoreTrace) :=
  addLayerFromImage c10Base.1 (some c10Base.2) "m" none

def c10Add2 : Option (CoreState × Nat × CoreTrace) :=
  addLayerFromImage ((c10Add1.map Prod.fst).getD initState) none "n" none

def c10State : CoreState :=
  (c10Add2.map Prod.fst).getD initState

/-- Widget scenarios: two one-pixel grayscale images. -/
def wImg1 : WImage :=
  { pixels := [[1]], palette := none, path := ["p1"] }

def wImg2 : WImage :=
  { pixels := [[2]], palette := none, path := ["p2"] }

def w6Start : WWorld :=
  { initWWorld with imageHeap := [(0, wImg1), (1, wImg2)] }

def w6Mk : Option (WWorld × Nat × List WEvent) :=
  wMkLayer w6Start (some 0) "L" true 1

def w6World1 : WWorld :=
  (w6Mk.map Prod.fst).getD initWWorld

def w6Set : Option (WWorld × List WEvent) :=
  wSetImage w6World1 0 (some 1)

def w6World2 : WWorld :=
  (w6Set.map Prod.fst).getD initWWorld

def w6Emit : WWorld × List WEvent :=
  wEmitPixelsModified w6World2 0

/-- C7 scenario: the layer's displayed image read once, so the cache holds
the pre-mutation bitmap. -/
def w7Read : Option (WWorld × List (List (List Nat))) :=
  wDisplayedImage w6World1 0

def w7World : WWorld :=
  (w7Read.map Prod.fst).getD initWWorld

/-- C8 scenario: two layers added to one `_LayeredImageItem`. -/
def w8Add1 : Option (WWorld × Nat × List WEvent) :=
  wAddLayer w6Start (some 0) "a" true 1

def w8World1 : WWorld :=
  (w8Add1.map Prod.fst).getD initWWorld

def w8Add2 : Option (WWorld × Nat × List WEvent) :=
  wAddLayer w8World1 (some 1) "b" true 1

def w8World2 : WWorld :=
  (w8Add2.map Prod.fst).getD initWWorld

/-! Concrete object values reached in the scenarios (used to discharge the
hypotheses of the claim theorems at concrete inputs). -/

def dupLayer2 : ImageLayer :=
  { id := 1, name := "a", image := none, path := none, palette := none,
    visibility := { visible := true, opacity := 1 },
    connectedPixelsModified := none, connectedShapeChanged := none }

def c5MaskLayer : ImageLayer :=
  { id := 1, name := "mask", image := some 1, path := none, palette := none,
    visibility := { visible := true, opacity := 1 },
    connectedPixelsModified := some 1, connectedShapeChanged := some 1 }

def c4Layer : ImageLayer :=
  { id := 0, name := "L", image := some 0, path := none, palette := some 7,
    visibility := { visible := true, opacity := 1 },
    connectedPixelsModified := some 0, connectedShapeChanged := some 0 }

def c4Img2 : Image :=
  { pixels := [[2]], palette := some 9, path := none }

/-- The C4 scenario's layer state after the replacement by image 1. -/
def c4LayerAfter : ImageLayer :=
  { id := 0, name := "L", image := some 1, path := none, palette := some 9,
    visibility := { visible := true, opacity := 1 },
    connectedPixelsModified := some 1, connectedShapeChanged := some 1 }

def w6Layer : WLayer :=
  { id := 0, name := "L", image := some 0, visible := true, opacity := 1,
    displayedImageCache := none }

def w7Layer : WLayer :=
  { id := 0, name := "L", image := some 0, visible := true, opacity := 1,
    displayedImageCache := some [[[1, 1, 1, 255]]] }

def c10LayerM : ImageLayer :=
  { id := 0, name := "m", image := some 0, path := none, palette := none,
    visibility := { visible := true, opacity := 1 },
    connectedPixelsModified := some 0, connectedShapeChanged := some 0 }

def c10LayerN : ImageLayer :=
  { id := 1, name := "n", image := none, path := none, palette := none,
    visibility := { visible := true, opacity := 1 },
    connectedPixelsModified := none, connectedShapeChanged := none }

def c10Img : Image :=
  { pixels := [[3]], palette := none, path := none }

/-! ### Lemmas about the dict operations -/

theorem dictGet_dictSet_self {κ α : Type} [DecidableEq κ] (d : List (κ × α)) (k : κ) (v : α) :
    dictGet (dictSet d k v) k = some v := by
  induction d with
  | nil => simp [dictGet, dictSet]
  | cons e rest ih =>
    by_cases h : e.1 = k
    · simp [dictSet, dictGet, h]
    · simp [dictSet, dictGet, h, ih]

theorem dictGet_dictSet_ne {κ α : Type} [DecidableEq κ] (d : List (κ × α)) (k k' : κ) (v : α)
    (h : k' ≠ k) : dictGet (dictSet d k v) k' = dictGet d k' := by
  induction d with
  | nil => simp [dictGet, dictSet, Ne.symm h]
  | cons e rest ih =>
    by_cases he : e.1 = k
    · subst he
      simp [dictSet, dictGet, Ne.symm h, h]
    · simp only [dictSet, he, if_false, dictGet]
      by_cases he' : e.1 = k'
      · simp [he']
      · simp [he', ih]

theorem dictGet_eq_none_iff {κ α : Type} [DecidableEq κ] (d : List (κ × α)) (k : κ) :
    dictGet d k = none ↔ ∀ e ∈ d, e.1 ≠ k := by
  induction d with
  | nil => simp [dictGet]
  | cons e rest ih =>
    by_cases h : e.1 = k
    · simp [dictGet, h]
    · simp [dictGet, h, ih]

theorem dictSet_eq_append {κ α : Type} [DecidableEq κ] (d : List (κ × α)) (k : κ) (v : α)
    (h : dictGet d k = none) : dictSet d k v = d ++ [(k, v)] := by
  induction d with
  | nil => simp [dictSet]
  | cons e rest ih =>
    rw [dictGet_eq_none_iff] at h
    have he : e.1 ≠ k := h e (by simp)
    have hrest : dictGet rest k = none := by
      rw [dictGet_eq_none_iff]
      exact fun f hf => h f (by simp [hf])
    simp [dictSet, he, ih hrest]

theorem dictSet_keys_of_get_some {κ α : Type} [DecidableEq κ] (d : List (κ × α)) (k : κ)
    (v a : α) (h : dictGet d k = some a) :
    (dictSet d k v).map Prod.fst = d.map Prod.fst := by
  induction d with
  | nil => simp [dictGet] at h
  | cons e rest ih =>
    by_cases he : e.1 = k
    · simp [dictSet, he]
    · simp only [dictGet, he, if_false] at h
      simp [dictSet, he, ih h]

theorem mem_of_dictGet_some {κ α : Type} [DecidableEq κ] (d : List (κ × α)) (k : κ) (v : α)
    (h : dictGet d k = some v) : (k, v) ∈ d := by
  induction d with
  | nil => simp [dictGet] at h
  | cons e rest ih =>
    obtain ⟨a, b⟩ := e
    by_cases he : a = k
    · simp only [dictGet, he, if_true] at h
      subst he
      cases Option.some.inj h
      exact List.mem_cons_self _ _
    · simp only [dictGet, he, if_false] at h
      exact List.mem_cons_of_mem _ (ih h)

theorem dictDel_sublist {κ α : Type} [DecidableEq κ] (d : List (κ × α)) (k : κ) :
    List.Sublist (dictDel d k) d := by
  induction d with
  | nil => simp [dictDel]
  | cons e rest ih =>
    by_cases he : e.1 = k
    · simp only [dictDel, he, if_true]
      exact List.sublist_cons_of_sublist e (List.Sublist.refl rest)
    · simp only [dictDel, he, if_false]
      exact ih.cons₂ e

theorem dictGet_dictDel_self_of_nodup {κ α : Type} [DecidableEq κ] (d : List (κ × α)) (k : κ)
    (h : (d.map Prod.fst).Nodup) : dictGet (dictDel d k) k = none := by
  induction d with
  | nil => simp [dictDel, dictGet]
  | cons e rest ih =>
    simp only [List.map_cons, List.nodup_cons] at h
    by_cases he : e.1 = k
    · simp only [dictDel, he, if_true]
      rw [dictGet_eq_none_iff]
      intro f hf hfk
      exact h.1 (he ▸ hfk ▸ List.mem_map_of_mem Prod.fst hf)
    · simp [dictDel, he, dictGet, ih h.2]

theorem map_snd_dictDel {κ α : Type} [DecidableEq κ] [DecidableEq α]
    (d : List (κ × α)) (n : κ) (lid : α)
    (h : ∀ e ∈ d, e.1 = n ↔ e.2 = lid) :
    (dictDel d n).map Prod.snd = (d.map Prod.snd).erase lid := by
  induction d with
  | nil => simp [dictDel]
  | cons e rest ih =>
    by_cases he : e.1 = n
    · have he2 : e.2 = lid := (h e (by simp)).1 he
      simp [dictDel, he, he2, List.erase_cons_head]
    · have he2 : e.2 ≠ lid := fun hc => he ((h e (by simp)).2 hc)
      have ihh : ∀ f ∈ rest, f.1 = n ↔ f.2 = lid :=
        fun f hf => h f (List.mem_cons_of_mem _ hf)
      simp only [dictDel, he, if_false, List.map_cons]
      rw [List.erase_cons_tail, ih ihh]
      simp [he2]

theorem eq_of_mem_of_fst_eq {κ α : Type} [DecidableEq κ] {d : List (κ × α)}
    (h : (d.map Prod.fst).Nodup) {e f : κ × α} (he : e ∈ d) (hf : f ∈ d)
    (hfst : e.1 = f.1) : e = f := by
  induction d with
  | nil => simp at he
  | cons g rest ih =>
    simp only [List.map_cons, List.nodup_cons] at h
    rcases List.mem_cons.1 he with he1 | he2 <;> rcases List.mem_cons.1 hf with hf1 | hf2
    · rw [he1, hf1]
    · exfalso
      apply h.1
      have hm : f.1 ∈ List.map Prod.fst rest := List.mem_map_of_mem Prod.fst hf2
      rwa [← hfst, he1] at hm
    · exfalso
      apply h.1
      have hm : e.1 ∈ List.map Prod.fst rest := List.mem_map_of_mem Prod.fst he2
      rwa [hfst, hf1] at hm
    · exact ih h.2 he2 hf2

theorem dictGet_some_of_mem_of_nodup {κ α : Type} [DecidableEq κ] {d : List (κ × α)}
    (h : (d.map Prod.fst).Nodup) {e : κ × α} (he : e ∈ d) : dictGet d e.1 = some e.2 := by
  induction d with
  | nil => simp at he
  | cons g rest ih =>
    simp only [List.map_cons, List.nodup_cons] at h
    rcases List.mem_cons.1 he with he1 | he2
    · simp [he1, dictGet]
    · have hne : g.1 ≠ e.1 := fun hc =>
        h.1 (hc ▸ List.mem_map_of_mem Prod.fst he2)
      simp [dictGet, hne, ih h.2 he2]

/-! ### Frame lemmas for the core operations -/

theorem setImage_frame (s : CoreState) (lid : Nat) (v : Option Nat) :
    (setImage s lid v).1.layers = s.layers ∧
    (setImage s lid v).1.layerByName = s.layerByName ∧
    (setImage s lid v).1.imageHeap = s.imageHeap ∧
    (setImage s lid v).1.nextLayerId = s.nextLayerId ∧
    (setImage s lid v).1.nextImageId = s.nextImageId := by
  cases h : dictGet s.layerHeap lid with
  | none => simp [setImage, h]
  | some layer =>
    by_cases hv : layer.image = v
    · simp [setImage, h, hv]
    · cases v with
      | none => simp [setImage, h, hv]
      | some iid =>
        cases h2 : dictGet s.imageHeap iid with
        | none => simp [setImage, h, hv, h2]
        | some img => simp [setImage, h, hv, h2]

theorem setImage_layerHeap_ne (s : CoreState) (lid k : Nat) (v : Option Nat) (hk : k ≠ lid) :
    dictGet (setImage s lid v).1.layerHeap k = dictGet s.layerHeap k := by
  cases h : dictGet s.layerHeap lid with
  | none => simp [setImage, h]
  | some layer =>
    by_cases hv : layer.image = v
    · simp [setImage, h, hv]
    · cases v with
      | none => simp [setImage, h, hv, dictGet_dictSet_ne _ _ _ _ hk]
      | some iid =>
        cases h2 : dictGet s.imageHeap iid with
        | none => simp [setImage, h, hv, h2, dictGet_dictSet_ne _ _ _ _ hk]
        | some img => simp [setImage, h, hv, h2, dictGet_dictSet_ne _ _ _ _ hk]

theorem setImage_layerHeap_keys (s : CoreState) (lid : Nat) (v : Option Nat) :
    ((setImage s lid v).1.layerHeap).map Prod.fst = s.layerHeap.map Prod.fst := by
  cases h : dictGet s.layerHeap lid with
  | none => simp [setImage, h]
  | some layer =>
    by_cases hv : layer.image = v
    · simp [setImage, h, hv]
    · cases v with
      | none => simp [setImage, h, hv, dictSet_keys_of_get_some _ _ _ _ h]
      | some iid =>
        cases h2 : dictGet s.imageHeap iid with
        | none => simp [setImage, h, hv, h2, dictSet_keys_of_get_some _ _ _ _ h]
        | some img =>
          simp only [setImage, h, hv, h2, if_false]
          rw [dictSet_keys_of_get_some _ _ _ _ (dictGet_dictSet_self _ _ _),
            dictSet_keys_of_get_some _ _ _ _ h]

theorem setImage_layerHeap_self (s : CoreState) (lid : Nat) (v : Option Nat) (layer : ImageLayer)
    (h : dictGet s.layerHeap lid = some layer) :
    ∃ l', dictGet (setImage s lid v).1.layerHeap lid = some l' ∧
      l'.id = layer.id ∧ l'.name = layer.name ∧ l'.visibility = layer.visibility ∧
      l'.image = v := by
  by_cases hv : layer.image = v
  · refine ⟨layer, ?_, rfl, rfl, rfl, hv⟩
    simp [setImage, h, hv]
  · cases v with
    | none =>
      refine ⟨?_, ?_⟩
      · exact { (if layer.image.isSome then
                  { layer with connectedPixelsModified := none, connectedShapeChanged := none }
                 else layer) with image := none }
      constructor
      · simp only [setImage, h, hv, if_false]
        exact dictGet_dictSet_self _ _ _
      · by_cases hs : layer.image.isSome <;> simp [hs]
    | some iid =>
      cases h2 : dictGet s.imageHeap iid with
      | none =>
        refine ⟨?_, ?_⟩
        · exact { (if layer.image.isSome then
                    { layer with connectedPixelsModified := none, connectedShapeChanged := none }
                   else layer) with image := some iid }
        constructor
        · simp only [setImage, h, hv, if_false, h2]
          exact dictGet_dictSet_self _ _ _
        · by_cases hs : layer.image.isSome <;> simp [hs]
      | some img =>
        simp only [setImage, h, hv, if_false, h2]
        refine ⟨_, dictGet_dictSet_self _ _ _, ?_⟩
        by_cases hs : layer.image.isSome <;> simp [hs]

theorem mkImageLayer_lid (s : CoreState) (image : Option Nat) (nm : String)
    (vis : Option Visibility) :
    (mkImageLayer s image nm vis).2.1 = s.nextLayerId := by
  unfold mkImageLayer
  dsimp only

theorem mkImageLayer_frame (s : CoreState) (image : Option Nat) (nm : String)
    (vis : Option Visibility) :
    (mkImageLayer s image nm vis).1.layers = s.layers ∧
    (mkImageLayer s image nm vis).1.layerByName = s.layerByName ∧
    (mkImageLayer s image nm vis).1.imageHeap = s.imageHeap ∧
    (mkImageLayer s image nm vis).1.nextImageId = s.nextImageId ∧
    (mkImageLayer s image nm vis).1.nextLayerId = s.nextLayerId + 1 := by
  unfold mkImageLayer
  dsimp only
  have hf := setImage_frame
    { s with
      layerHeap := dictSet s.layerHeap s.nextLayerId
        { id := s.nextLayerId, name := "", image := none, path := none, palette := none,
          visibility := Visibility.default,
          connectedPixelsModified := none, connectedShapeChanged := none },
      nextLayerId := s.nextLayerId + 1 }
    s.nextLayerId image
  split <;> exact ⟨hf.1, hf.2.1, hf.2.2.1, hf.2.2.2.2, hf.2.2.2.1⟩

theorem mkImageLayer_layerHeap_ne (s : CoreState) (image : Option Nat) (nm : String)
    (vis : Option Visibility) (k : Nat) (hk : k ≠ s.nextLayerId) :
    dictGet (mkImageLayer s image nm vis).1.layerHeap k = dictGet s.layerHeap k := by
  unfold mkImageLayer
  dsimp only
  have h1 : dictGet (dictSet s.layerHeap s.nextLayerId
      { id := s.nextLayerId, name := "", image := none, path := none, palette := none,
        visibility := Visibility.default,
        connectedPixelsModified := none, connectedShapeChanged := none }) k
      = dictGet s.layerHeap k := dictGet_dictSet_ne _ _ _ _ hk
  have h2 := setImage_layerHeap_ne
    { s with
      layerHeap := dictSet s.layerHeap s.nextLayerId
        { id := s.nextLayerId, name := "", image := none, path := none, palette := none,
          visibility := Visibility.default,
          connectedPixelsModified := none, connectedShapeChanged := none },
      nextLayerId := s.nextLayerId + 1 }
    s.nextLayerId k image hk
  split
  next heq =>
    rw [h2]
    exact h1
  next l heq =>
    rw [dictGet_dictSet_ne _ _ _ _ hk, h2]
    exact h1

theorem mkImageLayer_layerHeap_self (s : CoreState) (image : Option Nat) (nm : String)
    (vis : Option Visibility) :
    ∃ l, dictGet (mkImageLayer s image nm vis).1.layerHeap s.nextLayerId = some l ∧
      l.name = (if nm = "" then "Layer " ++ toString s.nextLayerId else nm) ∧
      l.id = s.nextLayerId ∧
      l.visibility = vis.getD Visibility.default := by
  unfold mkImageLayer
  dsimp only
  obtain ⟨l2, hl2, hid, hname, _, _⟩ := setImage_layerHeap_self
    { s with
      layerHeap := dictSet s.layerHeap s.nextLayerId
        { id := s.nextLayerId, name := "", image := none, path := none, palette := none,
          visibility := Visibility.default,
          connectedPixelsModified := none, connectedShapeChanged := none },
      nextLayerId := s.nextLayerId + 1 }
    s.nextLayerId image
    { id := s.nextLayerId, name := "", image := none, path := none, palette := none,
      visibility := Visibility.default,
      connectedPixelsModified := none, connectedShapeChanged := none }
    (dictGet_dictSet_self _ _ _)
  split
  next heq =>
    rw [heq] at hl2
    cases hl2
  next l heq =>
    refine ⟨_, dictGet_dictSet_self _ _ _, rfl, ?_, rfl⟩
    rw [hl2] at heq
    cases heq
    exact hid

theorem mkImageLayer_layerHeap_keys (s : CoreState) (image : Option Nat) (nm : String)
    (vis : Option Visibility) (hfresh : dictGet s.layerHeap s.nextLayerId = none) :
    ((mkImageLayer s image nm vis).1.layerHeap).map Prod.fst
      = s.layerHeap.map Prod.fst ++ [s.nextLayerId] := by
  unfold mkImageLayer
  dsimp only
  have hk0 : (dictSet s.layerHeap s.nextLayerId
      { id := s.nextLayerId, name := "", image := none, path := none, palette := none,
        visibility := Visibility.default,
        connectedPixelsModified := none, connectedShapeChanged := none }).map Prod.fst
      = s.layerHeap.map Prod.fst ++ [s.nextLayerId] := by
    rw [dictSet_eq_append _ _ _ hfresh]
    simp
  have hk1 := setImage_layerHeap_keys
    { s with
      layerHeap := dictSet s.layerHeap s.nextLayerId
        { id := s.nextLayerId, name := "", image := none, path := none, palette := none,
          visibility := Visibility.default,
          connectedPixelsModified := none, connectedShapeChanged := none },
      nextLayerId := s.nextLayerId + 1 }
    s.nextLayerId image
  split
  next heq =>
    rw [hk1]
    exact hk0
  next l heq =>
    rw [dictSet_keys_of_get_some _ _ _ _ heq, hk1]
    exact hk0

theorem addLayer_eq (s : CoreState) (lid : Nat) (layer : ImageLayer)
    (h : dictGet s.layerHeap lid = some layer) :
    addLayer s lid = some
      ({ s with layers := s.layers ++ [lid],
                layerByName := dictSet s.layerByName layer.name lid },
       [(CoreEvent.layerAdding lid s.layers.length, s),
        (CoreEvent.layerAdded lid s.layers.length,
         { s with layers := s.layers ++ [lid],
                  layerByName := dictSet s.layerByName layer.name lid })]) := by
  unfold addLayer
  rw [h]

theorem removeLayer_eq (s : CoreState) (lid : Nat) (layer : ImageLayer) (idx lid2 : Nat)
    (hidx : s.layers.findIdx? (fun x => x == lid) = some idx)
    (h : dictGet s.layerHeap lid = some layer)
    (hd : dictGet s.layerByName layer.name = some lid2) :
    removeLayer s lid = some
      ({ s with layers := s.layers.erase lid,
                layerByName := dictDel s.layerByName layer.name },
       [(CoreEvent.layerRemoving lid idx, s),
        (CoreEvent.layerRemoved lid idx,
         { s with layers := s.layers.erase lid,
                  layerByName := dictDel s.layerByName layer.name })]) := by
  unfold removeLayer
  rw [hidx, h]
  dsimp only
  rw [hd]

theorem mem_of_findIdx?_eq_some {l : List Nat} {lid i j : Nat}
    (h : l.findIdx? (fun x => x == lid) j = some i) : lid ∈ l := by
  induction l generalizing i j with
  | nil => simp at h
  | cons a rest ih =>
    rw [List.findIdx?_cons] at h
    by_cases ha : a = lid
    · exact ha ▸ List.mem_cons_self _ _
    · have hb : (a == lid) = false := by simp [ha]
      rw [hb] at h
      simp only [Bool.false_eq_true, if_false] at h
      exact List.mem_cons_of_mem _ (ih h)

/-! ### Preservation of the name-index invariant -/

theorem nameIndexInv_init : NameIndexInv initState := by
  constructor <;> simp [initState]

theorem layerName_stable (s s' : CoreState) (lid : Nat)
    (h : dictGet s'.layerHeap lid = dictGet s.layerHeap lid) :
    layerName s' lid = layerName s lid := by
  unfold layerName
  rw [h]

theorem nameIndexInv_construct (s : CoreState) (image : Option Nat) (nm : String)
    (vis : Option Visibility) (hInv : NameIndexInv s) :
    NameIndexInv (mkImageLayer s image nm vis).1 := by
  obtain ⟨hm, hn, hnd, hb, hknd⟩ := hInv
  obtain ⟨hl, hbn, _, _, hnli⟩ := mkImageLayer_frame s image nm vis
  have hfresh : dictGet s.layerHeap s.nextLayerId = none := by
    rw [dictGet_eq_none_iff]
    exact fun e he => Nat.ne_of_lt (hb e he)
  have hkeys := mkImageLayer_layerHeap_keys s image nm vis hfresh
  constructor
  · rw [hbn, hl]; exact hm
  · intro e he
    rw [hbn] at he
    have he2 := hn e he
    have hlt : e.2 < s.nextLayerId := by
      cases hg : dictGet s.layerHeap e.2 with
      | none => rw [layerName, hg] at he2; cases he2
      | some l => exact hb _ (mem_of_dictGet_some _ _ _ hg)
    rw [layerName_stable s _ e.2
      (mkImageLayer_layerHeap_ne s image nm vis e.2 (Nat.ne_of_lt hlt))]
    exact he2
  · rw [hbn]; exact hnd
  · intro e he
    rw [hnli]
    have hmem : e.1 ∈ ((mkImageLayer s image nm vis).1.layerHeap).map Prod.fst :=
      List.mem_map_of_mem Prod.fst he
    rw [hkeys] at hmem
    rcases List.mem_append.1 hmem with hold | hnew
    · obtain ⟨f, hf, hfe⟩ := List.mem_map.1 hold
      exact Nat.lt_succ_of_lt (hfe ▸ hb f hf)
    · simp only [List.mem_singleton] at hnew
      rw [hnew]
      exact Nat.lt_succ_self _
  · rw [hkeys, List.nodup_append]
    refine ⟨hknd, List.nodup_singleton _, ?_⟩
    intro a ha hb2
    simp only [List.mem_singleton] at hb2
    obtain ⟨f, hf, hfe⟩ := List.mem_map.1 ha
    exact Nat.ne_of_lt (hfe ▸ hb f hf) hb2

theorem nameIndexInv_add (s : CoreState) (lid : Nat) (layer : ImageLayer)
    (hlayer : dictGet s.layerHeap lid = some layer)
    (hfresh : dictGet s.layerByName layer.name = none)
    (hInv : NameIndexInv s) :
    NameIndexInv { s with layers := s.layers ++ [lid],
                          layerByName := dictSet s.layerByName layer.name lid } := by
  obtain ⟨hm, hn, hnd, hb, hknd⟩ := hInv
  rw [dictSet_eq_append _ _ _ hfresh]
  constructor
  · simp only [List.map_append]
    rw [hm]
    rfl
  · intro e he
    rcases List.mem_append.1 he with hold | hnew
    · exact hn e hold
    · simp only [List.mem_singleton] at hnew
      rw [hnew]
      unfold layerName
      simp [hlayer]
  · simp only [List.map_append, List.nodup_append]
    refine ⟨hnd, List.nodup_singleton _, ?_⟩
    intro a ha hb2
    simp only [List.map_cons, List.map_nil, List.mem_singleton] at hb2
    rw [dictGet_eq_none_iff] at hfresh
    obtain ⟨f, hf, hfe⟩ := List.mem_map.1 ha
    exact hfresh f hf (hfe.trans hb2)
  · exact hb
  · exact hknd

theorem nameIndexInv_remove (s : CoreState) (lid : Nat) (s' : CoreState) (tr : CoreTrace)
    (hstep : removeLayer s lid = some (s', tr)) (hInv : NameIndexInv s) :
    NameIndexInv s' := by
  obtain ⟨hm, hn, hnd, hb, hknd⟩ := hInv
  unfold removeLayer at hstep
  cases hidx : s.layers.findIdx? (fun x => x == lid) with
  | none => rw [hidx] at hstep; cases hstep
  | some idx =>
    rw [hidx] at hstep
    cases hlay : dictGet s.layerHeap lid with
    | none => rw [hlay] at hstep; cases hstep
    | some layer =>
      rw [hlay] at hstep
      dsimp only at hstep
      cases hdg : dictGet s.layerByName layer.name with
      | none => rw [hdg] at hstep; cases hstep
      | some lid2 =>
        rw [hdg] at hstep
        simp only [Option.some.injEq, Prod.mk.injEq] at hstep
        obtain ⟨hs', _⟩ := hstep
        rw [← hs']
        have hmemlid : lid ∈ s.layers := mem_of_findIdx?_eq_some hidx
        have hmemsnd : lid ∈ s.layerByName.map Prod.snd := hm ▸ hmemlid
        obtain ⟨e0, he0, he0snd⟩ := List.mem_map.1 hmemsnd
        have he0fst : e0.1 = layer.name := by
          have := hn e0 he0
          rw [he0snd] at this
          unfold layerName at this
          rw [hlay] at this
          exact (Option.some.inj this).symm
        have hiff : ∀ e ∈ s.layerByName, e.1 = layer.name ↔ e.2 = lid := by
          intro e he
          constructor
          · intro hfst
            have : e = e0 := eq_of_mem_of_fst_eq hnd he he0 (hfst.trans he0fst.symm)
            rw [this, he0snd]
          · intro hsnd
            have := hn e he
            rw [hsnd] at this
            unfold layerName at this
            rw [hlay] at this
            exact (Option.some.inj this).symm
        constructor
        · rw [map_snd_dictDel _ _ _ hiff, hm]
        · intro e he
          exact hn e (List.Sublist.mem he (dictDel_sublist _ _))
        · exact ((dictDel_sublist s.layerByName layer.name).map Prod.fst).nodup hnd
        · exact hb
        · exact hknd

/-! ### Claim C1 -/

/-- C1 (counterexample): the claimed invariant fails as stated.  `add_layer`
does not validate name uniqueness, so after adding two layers both named
`"a"`, the layer sequence has length 2 while the name index has length 1 —
the lengths disagree and the name occurs twice across the sequence. -/
theorem C1_counterexample :
    dupAddResult.isSome = true ∧
    dupState2.layers.length = 2 ∧
    dupState2.layerByName.length = 1 := by
  decide

theorem nameIndexInv_step (b c : CoreState) (hstep : GoodStep b c)
    (hInv : NameIndexInv b) : NameIndexInv c := by
  induction hstep with
  | construct image nm vis s' lid tr hstep2 =>
    have hc := nameIndexInv_construct b image nm vis hInv
    rw [hstep2] at hc
    exact hc
  | add lid layer s' tr hlayer hfresh hstep2 =>
    rw [addLayer_eq b lid layer hlayer] at hstep2
    simp only [Option.some.injEq, Prod.mk.injEq] at hstep2
    rw [← hstep2.1]
    exact nameIndexInv_add b lid layer hlayer hfresh hInv
  | remove lid s' tr hstep2 =>
    exact nameIndexInv_remove b lid s' tr hstep2 hInv

/-- C1 (amended): for every sequence of layer constructions, `add_layer`
calls whose layer name is not already present in the name index, and
`remove_layer` calls, the name index and the ordered sequence agree: equal
lengths, pairwise distinct layer names across the sequence, the index values
mirror the sequence pointwise, and every index entry records its layer's
actual name (no orphaned entries). -/
theorem C1_name_index_agreement (s : CoreState)
    (h : Relation.ReflTransGen GoodStep initState s) :
    s.layerByName.length = s.layers.length ∧
    (s.layers.map (layerName s)).Nodup ∧
    s.layerByName.map Prod.snd = s.layers ∧
    (∀ e ∈ s.layerByName, layerName s e.2 = some e.1) := by
  have hInv : NameIndexInv s := by
    induction h with
    | refl => exact nameIndexInv_init
    | tail hsteps hstep ih => exact nameIndexInv_step _ _ hstep ih
  refine ⟨?_, ?_, hInv.mirror, hInv.names⟩
  · have hl := congrArg List.length hInv.mirror
    simpa using hl
  · have hmapeq : s.layers.map (layerName s)
        = (s.layerByName.map Prod.fst).map some := by
      conv_lhs => rw [← hInv.mirror]
      rw [List.map_map, List.map_map]
      refine List.map_congr_left ?_
      intro e he
      simp only [Function.comp_apply]
      exact hInv.names e he
    rw [hmapeq]
    exact hInv.namesNodup.map (Option.some_injective _)

/-- C1 (witness): the amended invariant evaluated on the concrete
construct/add chain that produces `c3S1`. -/
theorem C1_witness :
    c3S1.layerByName.length = c3S1.layers.length ∧
    (c3S1.layers.map (layerName c3S1)).Nodup ∧
    c3S1.layerByName.map Prod.snd = c3S1.layers ∧
    (∀ e ∈ c3S1.layerByName, layerName c3S1 e.2 = some e.1) := by
  apply C1_name_index_agreement
  have h1 : GoodStep initState c3Mk.1 :=
    GoodStep.construct initState none "x" none c3Mk.1 c3Mk.2.1 c3Mk.2.2 rfl
  have h2 : GoodStep c3Mk.1 c3S1 :=
    GoodStep.add c3Mk.1 0 c3Layer c3S1 c3AddTr (by decide) (by decide) (by decide)
  exact (Relation.ReflTransGen.refl.tail h1).tail h2

/-! ### Claim C3 -/

/-- C3: in `add_layer`, `layer_adding` fires while the layer is absent from
both the sequence and the name index, and `layer_added` fires with it present
in both; in `remove_layer`, `layer_removing` fires while the layer is still
present in both, and `layer_removed` fires with it absent from both (the
snapshots paired with the trace events are the states observers see). -/
theorem C3_notification_ordering :
    (∀ (s : CoreState) (lid : Nat) (layer : ImageLayer) (s' : CoreState) (tr : CoreTrace),
      dictGet s.layerHeap lid = some layer →
      lid ∉ s.layers →
      dictGet s.layerByName layer.name ≠ some lid →
      addLayer s lid = some (s', tr) →
      ∃ σ1 σ2 idx,
        tr = [(CoreEvent.layerAdding lid idx, σ1), (CoreEvent.layerAdded lid idx, σ2)] ∧
        lid ∉ σ1.layers ∧ dictGet σ1.layerByName layer.name ≠ some lid ∧
        lid ∈ σ2.layers ∧ dictGet σ2.layerByName layer.name = some lid) ∧
    (∀ (s : CoreState) (lid : Nat) (layer : ImageLayer) (s' : CoreState) (tr : CoreTrace),
      dictGet s.layerHeap lid = some layer →
      dictGet s.layerByName layer.name = some lid →
      s.layers.Nodup →
      (s.layerByName.map Prod.fst).Nodup →
      removeLayer s lid = some (s', tr) →
      ∃ σ1 σ2 idx,
        tr = [(CoreEvent.layerRemoving lid idx, σ1), (CoreEvent.layerRemoved lid idx, σ2)] ∧
        lid ∈ σ1.layers ∧ dictGet σ1.layerByName layer.name = some lid ∧
        lid ∉ σ2.layers ∧ dictGet σ2.layerByName layer.name = none) := by
  constructor
  · intro s lid layer s' tr hlayer hmem hidxne hstep
    rw [addLayer_eq s lid layer hlayer] at hstep
    simp only [Option.some.injEq, Prod.mk.injEq] at hstep
    refine ⟨s, _, s.layers.length, hstep.2.symm, hmem, hidxne, ?_, ?_⟩
    · simp
    · exact dictGet_dictSet_self _ _ _
  · intro s lid layer s' tr hlayer hd hnd hknd hstep
    unfold removeLayer at hstep
    cases hidx : s.layers.findIdx? (fun x => x == lid) with
    | none => rw [hidx] at hstep; cases hstep
    | some idx =>
      rw [hidx] at hstep
      rw [hlayer] at hstep
      dsimp only at hstep
      rw [hd] at hstep
      simp only [Option.some.injEq, Prod.mk.injEq] at hstep
      refine ⟨s, _, idx, hstep.2.symm, mem_of_findIdx?_eq_some hidx, hd, ?_, ?_⟩
      · intro hmem
        exact ((hnd.mem_erase_iff).1 hmem).1 rfl
      · exact dictGet_dictDel_self_of_nodup _ _ hknd

/-- C3 (witness): both parts of the ordering theorem evaluated on the
concrete scenario of adding and then removing layer `"x"`. -/
theorem C3_witness :
    (∃ σ1 σ2 idx,
      c3AddTr = [(CoreEvent.layerAdding 0 idx, σ1), (CoreEvent.layerAdded 0 idx, σ2)] ∧
      0 ∉ σ1.layers ∧ dictGet σ1.layerByName c3Layer.name ≠ some 0 ∧
      0 ∈ σ2.layers ∧ dictGet σ2.layerByName c3Layer.name = some 0) ∧
    (∃ σ1 σ2 idx,
      c3RemTr = [(CoreEvent.layerRemoving 0 idx, σ1), (CoreEvent.layerRemoved 0 idx, σ2)] ∧
      0 ∈ σ1.layers ∧ dictGet σ1.layerByName c3Layer.name = some 0 ∧
      0 ∉ σ2.layers ∧ dictGet σ2.layerByName c3Layer.name = none) := by
  constructor
  · exact C3_notification_ordering.1 c3Mk.1 0 c3Layer c3S1 c3AddTr
      (by decide) (by decide) (by decide) (by decide)
  · exact C3_notification_ordering.2 c3S1 0 c3Layer c3S2 c3RemTr
      (by decide) (by decide) (by decide) (by decide) (by decide)

/-! ### Claim C2 -/

/-- C2 (counterexample): `add_layer` does not fail when the name `"a"`
already exists — the second add succeeds (no ValidationError-kind failure is
possible: the operation is total), appends the layer, and silently overwrites
the name-index entry. -/
theorem C2_counterexample :
    dictGet dupState1.layerByName "a" = some 0 ∧
    dupAddResult.isSome = true ∧
    dupState2.layers = [0, 1] ∧
    dictGet dupState2.layerByName "a" = some 1 := by
  decide

/-- C2 (amended): `add_layer` performs no duplicate-name validation: for any
heap-backed layer it succeeds, appending the layer to the sequence and
overwriting any existing name-index entry for its name; an empty layer name
is replaced at construction time by the unique default `"Layer {id}"`. -/
theorem C2_add_layer_no_validation :
    (∀ (s : CoreState) (lid : Nat) (layer : ImageLayer),
      dictGet s.layerHeap lid = some layer →
      ∃ s' tr, addLayer s lid = some (s', tr) ∧
        s'.layers = s.layers ++ [lid] ∧
        s'.layerByName = dictSet s.layerByName layer.name lid) ∧
    (∀ (s : CoreState) (image : Option Nat) (vis : Option Visibility),
      layerName (mkImageLayer s image "" vis).1 (mkImageLayer s image "" vis).2.1
        = some ("Layer " ++ toString s.nextLayerId)) := by
  constructor
  · intro s lid layer hlayer
    exact ⟨_, _, addLayer_eq s lid layer hlayer, rfl, rfl⟩
  · intro s image vis
    obtain ⟨l, hl, hname, _, _⟩ := mkImageLayer_layerHeap_self s image "" vis
    rw [mkImageLayer_lid]
    unfold layerName
    rw [hl]
    simp [hname]

/-- C2 (witness): the amended behaviour at the concrete duplicate-add
scenario and at a concrete empty-name construction. -/
theorem C2_witness :
    (∃ s' tr, addLayer dupStep2.1 1 = some (s', tr) ∧
      s'.layers = dupStep2.1.layers ++ [1] ∧
      s'.layerByName = dictSet dupStep2.1.layerByName dupLayer2.name 1) ∧
    layerName (mkImageLayer initState none "" none).1
        (mkImageLayer initState none "" none).2.1
      = some ("Layer " ++ toString initState.nextLayerId) := by
  constructor
  · exact C2_add_layer_no_validation.1 dupStep2.1 1 dupLayer2 (by decide)
  · exact C2_add_layer_no_validation.2 initState none none

/-! ### Claim C4 -/

/-- C4 (counterexample): at the moment `image_updated` fires for replacing
image 0 (palette 7) with image 1 (palette 9), the layer is already
disconnected from the old image's signals but NOT yet connected to the new
image's (both connection slots are empty) and still mirrors the old palette 7
— the mirrored-attribute update and the re-connection happen only after the
notification, contradicting the claimed ordering.  Moreover, replacing the
image with `None` leaves the stale palette 9 in place instead of clearing
it. -/
theorem C4_counterexample :
    c4Replace.2.map Prod.fst = [CoreEvent.imageUpdated 0 (some 1)] ∧
    ((c4Replace.2.head?.bind (fun e => dictGet e.2.layerHeap 0)).map
      (fun l => (l.connectedPixelsModified, l.connectedShapeChanged, l.palette)))
      = some (none, none, some 7) ∧
    ((dictGet c4ToNone.1.layerHeap 0).map (fun l => (l.palette, l.image)))
      = some (some 9, none) := by
  decide

/-- C4 (amended): when a layer's image (currently some old image) is replaced
by a different image, the setter disconnects the old image's signals and
installs the new reference before `image_updated` fires — the notification
carries the new image, never a stale one — but the mirrored path/palette
update and the connection to the new image's signals happen only after the
emission; replacing the image with `None` leaves the mirrored path/palette
unchanged rather than clearing them. -/
theorem C4_image_setter_order :
    (∀ (s : CoreState) (lid iidOld iidNew : Nat) (layer : ImageLayer) (img : Image),
      dictGet s.layerHeap lid = some layer →
      layer.image = some iidOld →
      iidOld ≠ iidNew →
      dictGet s.imageHeap iidNew = some img →
      ∃ σ lσ l',
        (setImage s lid (some iidNew)).2
          = [(CoreEvent.imageUpdated lid (some iidNew), σ)] ∧
        dictGet σ.layerHeap lid = some lσ ∧
        lσ.image = some iidNew ∧
        lσ.connectedPixelsModified = none ∧ lσ.connectedShapeChanged = none ∧
        lσ.palette = layer.palette ∧ lσ.path = layer.path ∧
        dictGet (setImage s lid (some iidNew)).1.layerHeap lid = some l' ∧
        l'.connectedPixelsModified = some iidNew ∧
        l'.connectedShapeChanged = some iidNew ∧
        l'.palette = img.palette) ∧
    (∀ (s : CoreState) (lid iidOld : Nat) (layer : ImageLayer),
      dictGet s.layerHeap lid = some layer →
      layer.image = some iidOld →
      ∃ l', dictGet (setImage s lid none).1.layerHeap lid = some l' ∧
        l'.image = none ∧
        l'.palette = layer.palette ∧ l'.path = layer.path ∧
        l'.connectedPixelsModified = none ∧ l'.connectedShapeChanged = none) := by
  constructor
  · intro s lid iidOld iidNew layer img hlayer hold hne himg
    have hvne : layer.image ≠ some iidNew := by
      rw [hold]
      intro hc
      exact hne (Option.some.inj hc)
    have hsome : layer.image.isSome = true := by rw [hold]; rfl
    simp only [setImage, hlayer, hvne, if_false, himg, hsome, if_true]
    exact ⟨_, _, _, rfl, dictGet_dictSet_self _ _ _, rfl, rfl, rfl, rfl, rfl,
      dictGet_dictSet_self _ _ _, rfl, rfl, rfl⟩
  · intro s lid iidOld layer hlayer hold
    have hvne : layer.image ≠ none := by rw [hold]; exact Option.noConfusion
    have hsome : layer.image.isSome = true := by rw [hold]; rfl
    simp only [setImage, hlayer, hvne, if_false, hsome, if_true]
    exact ⟨_, dictGet_dictSet_self _ _ _, rfl, rfl, rfl, rfl, rfl⟩

/-- C4 (witness): the amended ordering evaluated at the concrete replacement
scenario (image 0 → image 1, then image 1 → `None`). -/
theorem C4_witness :
    (∃ σ lσ l',
      (setImage c4Mk.1 0 (some 1)).2 = [(CoreEvent.imageUpdated 0 (some 1), σ)] ∧
      dictGet σ.layerHeap 0 = some lσ ∧
      lσ.image = some 1 ∧
      lσ.connectedPixelsModified = none ∧ lσ.connectedShapeChanged = none ∧
      lσ.palette = c4Layer.palette ∧ lσ.path = c4Layer.path ∧
      dictGet (setImage c4Mk.1 0 (some 1)).1.layerHeap 0 = some l' ∧
      l'.connectedPixelsModified = some 1 ∧ l'.connectedShapeChanged = some 1 ∧
      l'.palette = c4Img2.palette) ∧
    (∃ l', dictGet (setImage c4Replace.1 0 none).1.layerHeap 0 = some l' ∧
      l'.image = none ∧
      l'.palette = c4LayerAfter.palette ∧
      l'.path = c4LayerAfter.path ∧
      l'.connectedPixelsModified = none ∧ l'.connectedShapeChanged = none) := by
  constructor
  · exact C4_image_setter_order.1 c4Mk.1 0 0 1 c4Layer c4Img2
      (by decide) (by decide) (by decide) (by decide)
  · exact C4_image_setter_order.2 c4Replace.1 0 1 c4LayerAfter
      (by decide) (by decide)

/-! ### Claim C5 -/

/-- C5: when a layer named `name` already exists,
`add_layer_or_modify_image(name, image)` replaces that layer's image in
place: the same layer id is returned, the layer sequence and the name index
are untouched (the layer count is unchanged), the layer object keeps its id,
name and visibility, and its image afterwards is the image of this — the
most recent — call. -/
theorem C5_modify_image_in_place (s : CoreState) (name : String) (lid iid : Nat)
    (layer : ImageLayer)
    (hname : dictGet s.layerByName name = some lid)
    (hlayer : dictGet s.layerHeap lid = some layer) :
    ∃ s' tr l',
      addLayerOrModifyImage s name iid = some (s', lid, tr) ∧
      s'.layers = s.layers ∧ s'.layerByName = s.layerByName ∧
      dictGet s'.layerHeap lid = some l' ∧
      l'.id = layer.id ∧ l'.name = layer.name ∧ l'.visibility = layer.visibility ∧
      l'.image = some iid := by
  obtain ⟨l', hget, hid, hname2, hvis, himg⟩ :=
    setImage_layerHeap_self s lid (some iid) layer hlayer
  obtain ⟨hl, hbn, _, _, _⟩ := setImage_frame s lid (some iid)
  have heq : addLayerOrModifyImage s name iid
      = some ((setImage s lid (some iid)).1, lid, (setImage s lid (some iid)).2) := by
    unfold addLayerOrModifyImage
    rw [hname]
  exact ⟨_, _, l', heq, hl, hbn, hget, hid, hname2, hvis, himg⟩

/-- C5 (witness): the two-call mask scenario — before the second call the
layer count is 2, and the second `add_layer_or_modify_image("mask", ...)`
keeps the count at 2, returns the same layer id 1, and leaves
`layer_by_name("mask").image` pointing at the second call's image. -/
theorem C5_witness :
    c5Mask2.1.layers.length = 2 ∧
    dictGet c5Mask2.1.layerByName "mask" = some 1 ∧
    (∃ s' tr l',
      addLayerOrModifyImage c5Mask2.1 "mask" c5Mask2.2 = some (s', 1, tr) ∧
      s'.layers = c5Mask2.1.layers ∧ s'.layerByName = c5Mask2.1.layerByName ∧
      dictGet s'.layerHeap 1 = some l' ∧
      l'.id = c5MaskLayer.id ∧ l'.name = c5MaskLayer.name ∧
      l'.visibility = c5MaskLayer.visibility ∧
      l'.image = some c5Mask2.2) :=
  ⟨by decide, by decide,
   C5_modify_image_in_place c5Mask2.1 "mask" 1 c5Mask2.2 c5MaskLayer
     (by decide) (by decide)⟩

/-! ### Frame lemmas for the widget operations -/

theorem wOnImageUpdated_frame (w : WWorld) (lid : Nat) :
    (wOnImageUpdated w lid).1.imageHeap = w.imageHeap ∧
    (wOnImageUpdated w lid).1.pixelsModifiedSubs = w.pixelsModifiedSubs ∧
    (wOnImageUpdated w lid).1.itemLayers = w.itemLayers ∧
    (wOnImageUpdated w lid).1.namesLayers = w.namesLayers ∧
    (wOnImageUpdated w lid).1.activeLayer = w.activeLayer ∧
    (wOnImageUpdated w lid).1.activeImageUpdatedSubs = w.activeImageUpdatedSubs := by
  unfold wOnImageUpdated
  split <;> exact ⟨rfl, rfl, rfl, rfl, rfl, rfl⟩

theorem wOnImageUpdated_layerHeap_ne (w : WWorld) (lid k : Nat) (hk : k ≠ lid) :
    dictGet (wOnImageUpdated w lid).1.layerHeap k = dictGet w.layerHeap k := by
  unfold wOnImageUpdated
  split
  · rfl
  · exact dictGet_dictSet_ne _ _ _ _ hk

theorem wOnImageUpdated_layerHeap_self (w : WWorld) (lid : Nat) (layer : WLayer)
    (h : dictGet w.layerHeap lid = some layer) :
    dictGet (wOnImageUpdated w lid).1.layerHeap lid
      = some { layer with displayedImageCache := none } := by
  unfold wOnImageUpdated
  rw [h]
  exact dictGet_dictSet_self _ _ _

theorem runHandlers_frame (lids : List Nat) : ∀ (w : WWorld),
    (runPixelsModifiedHandlers w lids).1.imageHeap = w.imageHeap ∧
    (runPixelsModifiedHandlers w lids).1.pixelsModifiedSubs = w.pixelsModifiedSubs := by
  induction lids with
  | nil => intro w; exact ⟨rfl, rfl⟩
  | cons a rest ih =>
    intro w
    unfold runPixelsModifiedHandlers
    dsimp only
    obtain ⟨h1, h2⟩ := ih (wOnImageUpdated w a).1
    obtain ⟨g1, g2, _, _, _, _⟩ := wOnImageUpdated_frame w a
    exact ⟨h1.trans g1, h2.trans g2⟩

theorem runHandlers_cache (lids : List Nat) : ∀ (w : WWorld) (lid : Nat) (layer : WLayer),
    dictGet w.layerHeap lid = some layer →
    dictGet (runPixelsModifiedHandlers w lids).1.layerHeap lid
      = some { layer with displayedImageCache :=
          if lid ∈ lids then none else layer.displayedImageCache } := by
  induction lids with
  | nil =>
    intro w lid layer h
    simpa [runPixelsModifiedHandlers] using h
  | cons a rest ih =>
    intro w lid layer h
    unfold runPixelsModifiedHandlers
    dsimp only
    by_cases ha : a = lid
    · subst ha
      have h1 := wOnImageUpdated_layerHeap_self w a layer h
      have h2 := ih (wOnImageUpdated w a).1 a { layer with displayedImageCache := none } h1
      rw [h2]
      simp
    · have hk : lid ≠ a := fun hc => ha hc.symm
      have h1 : dictGet (wOnImageUpdated w a).1.layerHeap lid = some layer := by
        rw [wOnImageUpdated_layerHeap_ne w a lid hk]
        exact h
      rw [ih (wOnImageUpdated w a).1 lid layer h1]
      simp [List.mem_cons, hk]

/-- The trace of delivering `pixels_modified` to the handlers: one
`image_updated` event per subscribed layer, in order, each carrying that
layer's current image. -/
theorem runHandlers_events (lids : List Nat) : ∀ (w : WWorld) (lid : Nat),
    lid ∈ lids →
    (∃ layer, dictGet w.layerHeap lid = some layer) →
    ∃ img, WEvent.imageUpdated lid img ∈ (runPixelsModifiedHandlers w lids).2 := by
  induction lids with
  | nil => intro w lid h; cases h
  | cons a rest ih =>
    intro w lid hmem ⟨layer, hlayer⟩
    unfold runPixelsModifiedHandlers
    dsimp only
    by_cases ha : a = lid
    · subst ha
      refine ⟨layer.image, ?_⟩
      unfold wOnImageUpdated
      rw [hlayer]
      simp
    · have hrest : lid ∈ rest := by
        rcases List.mem_cons.1 hmem with h1 | h2
        · exact absurd h1.symm ha
        · exact h2
      have hk : lid ≠ a := fun hc => ha hc.symm
      have h1 : dictGet (wOnImageUpdated w a).1.layerHeap lid = some layer := by
        rw [wOnImageUpdated_layerHeap_ne w a lid hk]
        exact hlayer
      obtain ⟨img, himg⟩ := ih (wOnImageUpdated w a).1 lid hrest ⟨layer, h1⟩
      exact ⟨img, List.mem_append.2 (Or.inr himg)⟩

/-! ### Claim C6 -/

/-- C6 (counterexample): in the widget layer (`_ImageItemLayer`), after the
layer's image is replaced by image 1, TWO `pixels_modified` subscriptions are
live (to image 0 and to image 1), and emitting `pixels_modified` on old
image 0 still triggers an `image_updated` notification on the layer — the
claimed single active subscription and absence of notifications is false. -/
theorem C6_counterexample :
    w6Set.isSome = true ∧
    w6World2.pixelsModifiedSubs = [(0, 0), (1, 0)] ∧
    w6Emit.2 = [WEvent.imageUpdated 0 (some 1)] := by
  decide

/-- C6 (amended): the core `ImageLayer` setter does re-subscribe exactly
once — after replacing the image, the layer's connection slots point to the
new image only; but the widget `_ImageItemLayer` setter leaks subscriptions:
every replacement appends a new `pixels_modified` connection without removing
the old one, so a pixel-modify on the old image still notifies the layer. -/
theorem C6_pixels_modified_subscriptions :
    (∀ (s : CoreState) (lid iidOld iidNew : Nat) (layer : ImageLayer) (img : Image),
      dictGet s.layerHeap lid = some layer →
      layer.image = some iidOld →
      iidOld ≠ iidNew →
      dictGet s.imageHeap iidNew = some img →
      ∃ l', dictGet (setImage s lid (some iidNew)).1.layerHeap lid = some l' ∧
        l'.connectedPixelsModified = some iidNew ∧
        l'.connectedShapeChanged = some iidNew) ∧
    (∀ (w : WWorld) (lid iidNew : Nat) (layer : WLayer),
      dictGet w.layerHeap lid = some layer →
      layer.image ≠ some iidNew →
      ∃ w' evs, wSetImage w lid (some iidNew) = some (w', evs) ∧
        w'.pixelsModifiedSubs = w.pixelsModifiedSubs ++ [(iidNew, lid)]) := by
  constructor
  · intro s lid iidOld iidNew layer img hlayer hold hne himg
    have hvne : layer.image ≠ some iidNew := by
      rw [hold]
      intro hc
      exact hne (Option.some.inj hc)
    have hsome : layer.image.isSome = true := by rw [hold]; rfl
    simp only [setImage, hlayer, hvne, if_false, himg, hsome, if_true]
    exact ⟨_, dictGet_dictSet_self _ _ _, rfl, rfl⟩
  · intro w lid iidNew layer hlayer hne
    simp only [wSetImage, hlayer, hne, if_false]
    refine ⟨_, _, rfl, ?_⟩
    obtain ⟨_, hsubs, _, _, _, _⟩ := wOnImageUpdated_frame
      { w with layerHeap := dictSet w.layerHeap lid ({ layer with image := some iidNew }) }
      lid
    rw [hsubs]

/-- C6 (witness): both halves evaluated concretely — the core replacement of
image 0 by image 1, and the widget replacement in the two-image scenario. -/
theorem C6_witness :
    (∃ l', dictGet (setImage c4Mk.1 0 (some 1)).1.layerHeap 0 = some l' ∧
      l'.connectedPixelsModified = some 1 ∧
      l'.connectedShapeChanged = some 1) ∧
    (∃ w' evs, wSetImage w6World1 0 (some 1) = some (w', evs) ∧
      w'.pixelsModifiedSubs = w6World1.pixelsModifiedSubs ++ [(1, 0)]) := by
  constructor
  · exact C6_pixels_modified_subscriptions.1 c4Mk.1 0 0 1 c4Layer c4Img2
      (by decide) (by decide) (by decide) (by decide)
  · exact C6_pixels_modified_subscriptions.2 w6World1 0 1 w6Layer
      (by decide) (by decide)

theorem wDisplayedImage_miss (w : WWorld) (lid iid : Nat) (layer : WLayer) (img : WImage)
    (h : dictGet w.layerHeap lid = some layer)
    (hc : layer.displayedImageCache = none)
    (hi : layer.image = some iid)
    (hm : dictGet w.imageHeap iid = some img) :
    wDisplayedImage w lid = some ({ w with layerHeap := dictSet w.layerHeap lid ({ layer with displayedImageCache := some (wRender img) }) }, wRender img) := by
  unfold wDisplayedImage
  rw [h]
  dsimp only
  rw [hc]
  dsimp only
  rw [hi]
  dsimp only
  rw [hm]

/-! ### Claim C7 -/

/-- C7: after a `pixels_modified` notification from the layer's image (as
emitted by `set_pixels`) or after the layer's image reference is replaced,
the displayed-image cache is dropped without any explicit invalidation call,
and the next `displayed_image` read recomputes the bitmap from the current
image — so whenever the recomputed bitmap differs from the previously cached
one, the value read differs from the pre-mutation cache. -/
theorem C7_cache_invalidation_roundtrip :
    (∀ (w : WWorld) (iid lid : Nat) (img : WImage) (layer : WLayer)
       (b0 : List (List (List Nat))) (newPx : List (List Nat)),
      dictGet w.imageHeap iid = some img →
      dictGet w.layerHeap lid = some layer →
      layer.image = some iid →
      layer.displayedImageCache = some b0 →
      (iid, lid) ∈ w.pixelsModifiedSubs →
      ∃ w' evs,
        wSetPixels w iid newPx = some (w', evs) ∧
        dictGet w'.layerHeap lid = some ({ layer with displayedImageCache := none }) ∧
        (wDisplayedImage w' lid).map Prod.snd
          = some (wRender ({ img with pixels := newPx })) ∧
        (wRender ({ img with pixels := newPx }) ≠ b0 →
          (wDisplayedImage w' lid).map Prod.snd ≠ some b0)) ∧
    (∀ (w : WWorld) (lid iid2 : Nat) (layer : WLayer) (img2 : WImage)
       (b0 : List (List (List Nat))),
      dictGet w.layerHeap lid = some layer →
      layer.displayedImageCache = some b0 →
      layer.image ≠ some iid2 →
      dictGet w.imageHeap iid2 = some img2 →
      ∃ w' evs,
        wSetImage w lid (some iid2) = some (w', evs) ∧
        dictGet w'.layerHeap lid
          = some ({ layer with image := some iid2, displayedImageCache := none }) ∧
        (wDisplayedImage w' lid).map Prod.snd = some (wRender img2) ∧
        (wRender img2 ≠ b0 → (wDisplayedImage w' lid).map Prod.snd ≠ some b0)) := by
  constructor
  · intro w iid lid img layer b0 newPx himg hlayer hli hcache hsub
    simp only [wSetPixels, himg]
    set w1 : WWorld :=
      { w with imageHeap := dictSet w.imageHeap iid ({ img with pixels := newPx }) } with hw1
    have hmem : lid ∈ wSubscribersOf w1 iid := by
      unfold wSubscribersOf
      rw [hw1]
      exact List.mem_map_of_mem Prod.snd (List.mem_filter.2 ⟨hsub, by simp⟩)
    have hlayer1 : dictGet w1.layerHeap lid = some layer := by rw [hw1]; exact hlayer
    have hcachefinal := runHandlers_cache (wSubscribersOf w1 iid) w1 lid layer hlayer1
    rw [if_pos hmem] at hcachefinal
    have hih := (runHandlers_frame (wSubscribersOf w1 iid) w1).1
    have hmget : dictGet (runPixelsModifiedHandlers w1 (wSubscribersOf w1 iid)).1.imageHeap iid
        = some ({ img with pixels := newPx }) := by
      rw [hih, hw1]
      exact dictGet_dictSet_self _ _ _
    have hdisp := wDisplayedImage_miss (runPixelsModifiedHandlers w1 (wSubscribersOf w1 iid)).1
      lid iid ({ layer with displayedImageCache := none }) ({ img with pixels := newPx })
      hcachefinal rfl hli hmget
    refine ⟨_, _, rfl, hcachefinal, ?_, ?_⟩
    · rw [hdisp]
      rfl
    · intro hne hcontra
      rw [hdisp] at hcontra
      exact hne (Option.some.inj hcontra)
  · intro w lid iid2 layer img2 b0 hlayer hcache hne himg2
    simp only [wSetImage, hlayer, hne, if_false]
    set w2 : WWorld :=
      { w with layerHeap := dictSet w.layerHeap lid ({ layer with image := some iid2 }) } with hw2
    have h1 : dictGet w2.layerHeap lid = some ({ layer with image := some iid2 }) := by
      rw [hw2]
      exact dictGet_dictSet_self _ _ _
    have hup := wOnImageUpdated_layerHeap_self w2 lid ({ layer with image := some iid2 }) h1
    have hheap := (wOnImageUpdated_frame w2 lid).1
    have hup' : dictGet ({ (wOnImageUpdated w2 lid).1 with pixelsModifiedSubs := (wOnImageUpdated w2 lid).1.pixelsModifiedSubs ++ [(iid2, lid)] } : WWorld).layerHeap lid = some ({ layer with image := some iid2, displayedImageCache := none }) := hup
    have hmget : dictGet ({ (wOnImageUpdated w2 lid).1 with pixelsModifiedSubs := (wOnImageUpdated w2 lid).1.pixelsModifiedSubs ++ [(iid2, lid)] } : WWorld).imageHeap iid2 = some img2 := by
      show dictGet (wOnImageUpdated w2 lid).1.imageHeap iid2 = some img2
      rw [hheap, hw2]
      exact himg2
    have hdisp := wDisplayedImage_miss
      ({ (wOnImageUpdated w2 lid).1 with pixelsModifiedSubs := (wOnImageUpdated w2 lid).1.pixelsModifiedSubs ++ [(iid2, lid)] } : WWorld)
      lid iid2 ({ layer with image := some iid2, displayedImageCache := none }) img2
      hup' rfl rfl hmget
    refine ⟨_, _, rfl, hup', ?_, ?_⟩
    · rw [hdisp]
      rfl
    · intro hb hcontra
      rw [hdisp] at hcontra
      exact hb (Option.some.inj hcontra)

/-- C7 (witness): the cached one-pixel bitmap, then (a) a `set_pixels` on the
image and (b) an image replacement, each dropping the cache and recomputing a
different bitmap on the next read. -/
theorem C7_witness :
    (∃ w' evs,
      wSetPixels w7World 0 [[5]] = some (w', evs) ∧
      dictGet w'.layerHeap 0 = some ({ w7Layer with displayedImageCache := none }) ∧
      (wDisplayedImage w' 0).map Prod.snd
        = some (wRender ({ wImg1 with pixels := [[5]] })) ∧
      (wRender ({ wImg1 with pixels := [[5]] }) ≠ [[[1, 1, 1, 255]]] →
        (wDisplayedImage w' 0).map Prod.snd ≠ some [[[1, 1, 1, 255]]])) ∧
    (∃ w' evs,
      wSetImage w7World 0 (some 1) = some (w', evs) ∧
      dictGet w'.layerHeap 0
        = some ({ w7Layer with image := some 1, displayedImageCache := none }) ∧
      (wDisplayedImage w' 0).map Prod.snd = some (wRender wImg2) ∧
      (wRender wImg2 ≠ [[[1, 1, 1, 255]]] →
        (wDisplayedImage w' 0).map Prod.snd ≠ some [[[1, 1, 1, 255]]])) := by
  constructor
  · exact C7_cache_invalidation_roundtrip.1 w7World 0 0 wImg1 w7Layer [[[1, 1, 1, 255]]] [[5]]
      (by decide) (by decide) (by decide) (by decide) (by decide)
  · exact C7_cache_invalidation_roundtrip.2 w7World 0 1 w7Layer wImg2 [[[1, 1, 1, 255]]]
      (by decide) (by decide) (by decide) (by decide)

theorem wSetImage_frame (w : WWorld) (lid : Nat) (v : Option Nat) (w' : WWorld)
    (evs : List WEvent) (h : wSetImage w lid v = some (w', evs)) :
    w'.itemLayers = w.itemLayers ∧ w'.namesLayers = w.namesLayers ∧
    w'.activeLayer = w.activeLayer ∧
    w'.activeImageUpdatedSubs = w.activeImageUpdatedSubs ∧
    w'.imageHeap = w.imageHeap := by
  unfold wSetImage at h
  cases hg : dictGet w.layerHeap lid with
  | none => rw [hg] at h; cases h
  | some layer =>
    rw [hg] at h
    dsimp only at h
    by_cases hv : layer.image = v
    · rw [if_pos hv] at h
      simp only [Option.some.injEq, Prod.mk.injEq] at h
      rw [← h.1]
      exact ⟨rfl, rfl, rfl, rfl, rfl⟩
    · rw [if_neg hv] at h
      cases v with
      | none => cases h
      | some iid =>
        simp only [Option.some.injEq, Prod.mk.injEq] at h
        obtain ⟨hw, _⟩ := h
        rw [← hw]
        obtain ⟨g1, _, g3, g4, g5, g6⟩ := wOnImageUpdated_frame
          { w with layerHeap := dictSet w.layerHeap lid ({ layer with image := some iid }) } lid
        exact ⟨g3, g4, g5, g6, g1⟩

theorem wMkLayer_frame (w : WWorld) (image : Option Nat) (nm : String) (vb : Bool) (op : ℚ)
    (w1 : WWorld) (lid : Nat) (evs : List WEvent)
    (h : wMkLayer w image nm vb op = some (w1, lid, evs)) :
    w1.itemLayers = w.itemLayers ∧ w1.namesLayers = w.namesLayers ∧
    w1.activeLayer = w.activeLayer ∧
    w1.activeImageUpdatedSubs = w.activeImageUpdatedSubs ∧
    w1.imageHeap = w.imageHeap ∧
    lid = w.nextLayerId := by
  unfold wMkLayer at h
  dsimp only at h
  cases hset : wSetImage { w with layerHeap := dictSet w.layerHeap w.nextLayerId ({ id := w.nextLayerId, name := "", image := none, visible := vb, opacity := op, displayedImageCache := none }), nextLayerId := w.nextLayerId + 1 } w.nextLayerId image with
  | none => rw [hset] at h; cases h
  | some r =>
    obtain ⟨w2, evs2⟩ := r
    rw [hset] at h
    dsimp only at h
    cases hgl : dictGet w2.layerHeap w.nextLayerId with
    | none => rw [hgl] at h; cases h
    | some l =>
      rw [hgl] at h
      simp only [Option.some.injEq, Prod.mk.injEq] at h
      obtain ⟨hw, hlid, _⟩ := h
      obtain ⟨f1, f2, f3, f4, f5⟩ := wSetImage_frame _ _ _ _ _ hset
      rw [← hw]
      exact ⟨f1, f2, f3, f4, f5, hlid.symm⟩

theorem wDisplayedImage_frame (w : WWorld) (lid : Nat) (w' : WWorld)
    (b : List (List (List Nat))) (h : wDisplayedImage w lid = some (w', b)) :
    w'.activeLayer = w.activeLayer ∧
    w'.activeImageUpdatedSubs = w.activeImageUpdatedSubs ∧
    w'.itemLayers = w.itemLayers := by
  unfold wDisplayedImage at h
  cases hg : dictGet w.layerHeap lid with
  | none => rw [hg] at h; cases h
  | some layer =>
    rw [hg] at h
    dsimp only at h
    cases hc : layer.displayedImageCache with
    | some b0 =>
      rw [hc] at h
      simp only [Option.some.injEq, Prod.mk.injEq] at h
      rw [← h.1]
      exact ⟨rfl, rfl, rfl⟩
    | none =>
      rw [hc] at h
      dsimp only at h
      cases hi : layer.image with
      | none => rw [hi] at h; cases h
      | some iid =>
        rw [hi] at h
        dsimp only at h
        cases hm : dictGet w.imageHeap iid with
        | none => rw [hm] at h; cases h
        | some img =>
          rw [hm] at h
          simp only [Option.some.injEq, Prod.mk.injEq] at h
          rw [← h.1]
          exact ⟨rfl, rfl, rfl⟩

/-! ### Claim C8 -/

/-- C8 (counterexample): after adding a second layer (id 1) to an item that
already holds layer 0, `active_layer` still refers to layer 0, not to the
most recently added layer 1. -/
theorem C8_counterexample :
    w8Add2.isSome = true ∧
    w8World2.itemLayers = [0, 1] ∧
    w8World2.activeLayer = some 0 ∧
    w8World2.activeLayer ≠ some 1 := by
  decide

/-- C8 (amended): `active_layer` is set only when the first layer is added
and never changes on later adds (the viewer offers no selection operation);
whenever `active_layer_changed` is delivered, the viewer handler removes the
`image_updated` subscription on the previous active layer and adds one on the
new active layer, so a single subscription is swapped, never leaked. -/
theorem C8_active_layer_behavior :
    (∀ (w : WWorld) (image : Option Nat) (nm : String) (vb : Bool) (op : ℚ)
       (w' : WWorld) (lid : Nat) (evs : List WEvent),
      w.itemLayers ≠ [] →
      wAddLayer w image nm vb op = some (w', lid, evs) →
      w'.activeLayer = w.activeLayer ∧
      w'.activeImageUpdatedSubs = w.activeImageUpdatedSubs) ∧
    (∀ (w : WWorld) (image : Option Nat) (nm : String) (vb : Bool) (op : ℚ)
       (w' : WWorld) (lid : Nat) (evs : List WEvent),
      w.itemLayers = [] →
      wAddLayer w image nm vb op = some (w', lid, evs) →
      w'.activeLayer = some lid ∧
      w'.activeImageUpdatedSubs = w.activeImageUpdatedSubs ++ [lid]) ∧
    (∀ (w : WWorld) (o n : Nat),
      w.activeImageUpdatedSubs = [o] →
      (wOnActiveLayerChanged w (some o) (some n)).activeImageUpdatedSubs = [n]) := by
  refine ⟨?_, ?_, ?_⟩
  · intro w image nm vb op w' lid evs hne hstep
    unfold wAddLayer at hstep
    cases hmk : wMkLayer w image nm vb op with
    | none => rw [hmk] at hstep; cases hstep
    | some r =>
      obtain ⟨w1, lid1, evs1⟩ := r
      rw [hmk] at hstep
      dsimp only at hstep
      obtain ⟨f1, f2, f3, f4, f5, _⟩ := wMkLayer_frame _ _ _ _ _ _ _ _ hmk
      have hlen : ¬ (w1.itemLayers ++ [lid1]).length = 1 := by
        rw [f1]
        cases hI : w.itemLayers with
        | nil => exact absurd hI hne
        | cons x xs => simp
      rw [if_neg hlen] at hstep
      simp only [Option.some.injEq, Prod.mk.injEq] at hstep
      obtain ⟨hw, _, _⟩ := hstep
      rw [← hw]
      exact ⟨f3, f4⟩
  · intro w image nm vb op w' lid evs hempty hstep
    unfold wAddLayer at hstep
    cases hmk : wMkLayer w image nm vb op with
    | none => rw [hmk] at hstep; cases hstep
    | some r =>
      obtain ⟨w1, lid1, evs1⟩ := r
      rw [hmk] at hstep
      dsimp only at hstep
      obtain ⟨f1, f2, f3, f4, f5, _⟩ := wMkLayer_frame _ _ _ _ _ _ _ _ hmk
      have hlen : (w1.itemLayers ++ [lid1]).length = 1 := by
        rw [f1, hempty]
        rfl
      rw [if_pos hlen] at hstep
      cases hdisp : wDisplayedImage (wOnActiveLayerChanged { w1 with itemLayers := w1.itemLayers ++ [lid1], namesLayers := dictSet w1.namesLayers nm lid1, activeLayer := some lid1 } none (some lid1)) lid1 with
      | none => rw [hdisp] at hstep; cases hstep
      | some r5 =>
        obtain ⟨w5, b5⟩ := r5
        rw [hdisp] at hstep
        simp only [Option.some.injEq, Prod.mk.injEq] at hstep
        obtain ⟨hw, hlid, _⟩ := hstep
        obtain ⟨d1, d2, _⟩ := wDisplayedImage_frame _ _ _ _ hdisp
        subst hlid
        rw [← hw]
        constructor
        · rw [d1]
          rfl
        · rw [d2]
          show w1.activeImageUpdatedSubs ++ [lid1] = w.activeImageUpdatedSubs ++ [lid1]
          rw [f4]
  · intro w o n h
    unfold wOnActiveLayerChanged
    rw [h]
    simp

/-- C8 (witness): the three behaviours evaluated on the concrete two-add
scenario and a concrete active-layer change. -/
theorem C8_witness :
    (w8World2.activeLayer = w8World1.activeLayer ∧
      w8World2.activeImageUpdatedSubs = w8World1.activeImageUpdatedSubs) ∧
    (w8World1.activeLayer = some 0 ∧
      w8World1.activeImageUpdatedSubs = w6Start.activeImageUpdatedSubs ++ [0]) ∧
    (wOnActiveLayerChanged { initWWorld with activeImageUpdatedSubs := [0] }
        (some 0) (some 1)).activeImageUpdatedSubs = [1] := by
  refine ⟨?_, ?_, ?_⟩
  · exact C8_active_layer_behavior.1 w8World1 (some 1) "b" true 1 w8World2 1
      [WEvent.imageUpdated 1 (some 1), WEvent.updateRequested]
      (by decide) (by decide)
  · exact C8_active_layer_behavior.2.1 w6Start (some 0) "a" true 1 w8World1 0
      [WEvent.imageUpdated 0 (some 0), WEvent.activeLayerChanged none (some 0)]
      (by decide) (by decide)
  · exact C8_active_layer_behavior.2.2 { initWWorld with activeImageUpdatedSubs := [0] } 0 1
      (by decide)

/-! ### Claim C9 -/

theorem ratFloor_eq_floor (q : ℚ) : ratFloor q = ⌊q⌋ := by
  rw [Rat.floor_def]
  exact Int.fdiv_eq_ediv _ (Int.ofNat_nonneg _)

theorem pyRound_int_add_half (n : ℤ) :
    pyRound ((n : ℚ) + 1/2) = if n % 2 = 0 then n else n + 1 := by
  have hf : ratFloor ((n : ℚ) + 1/2) = n := by
    rw [ratFloor_eq_floor, Int.floor_int_add]
    norm_num
  unfold pyRound
  rw [hf]
  have h1 : ((n : ℚ) + 1/2) - n = 1/2 := by ring
  rw [h1]
  norm_num

theorem pyRound_nat_add_half (n : ℕ) :
    pyRound ((n : ℚ) + 1/2) = if n % 2 = 0 then (n : ℤ) else (n : ℤ) + 1 := by
  have h := pyRound_int_add_half (n : ℤ)
  rw [Int.cast_natCast] at h
  rw [h]
  have hiff : ((n : ℤ) % 2 = 0) ↔ (n % 2 = 0) := by omega
  rw [if_congr hiff rfl rfl]

/-- C9: `viewport_pos_to_image_pixel_coords` composes the
viewport-to-scene-to-item transforms and rounds with Python `round`, and for
any view transform with nonzero scale (in particular 1.0 scale, any scroll
offset, any item origin), mapping the center of pixel (10, 20) to viewport
coordinates and back yields exactly [10, 20]. -/
theorem C9_pixel_center_roundtrip (t : ViewTransform) (origin : ℚ × ℚ)
    (h : t.scale ≠ 0) :
    viewportPosToImagePixelCoords t origin
      (imagePixelCenterToViewportPos t origin 10 20) = [10, 20] := by
  unfold viewportPosToImagePixelCoords imagePixelCenterToViewportPos viewportToScene
    sceneToViewport sceneToItem itemToScene pixelCenter
  dsimp only
  have hcancel : ∀ a o d : ℚ, ((a + o) * t.scale - d + d) / t.scale - o = a := by
    intro a o d
    field_simp
  rw [hcancel, hcancel, pyRound_nat_add_half, pyRound_nat_add_half]
  norm_num

/-- C9 (witness): the round trip at scale 1 with no scroll offset and the
item at the scene origin. -/
theorem C9_witness :
    viewportPosToImagePixelCoords ⟨1, 0, 0⟩ (0, 0)
      (imagePixelCenterToViewportPos ⟨1, 0, 0⟩ (0, 0) 10 20) = [10, 20] :=
  C9_pixel_center_roundtrip ⟨1, 0, 0⟩ (0, 0) one_ne_zero

/-! ### Claim C10 -/

theorem coreEmitPixelsModified_events (s : CoreState) (iid : Nat) :
    ∀ e ∈ coreEmitPixelsModified s iid,
      e.1 = CoreEvent.pixelsModified iid ∨
      ∃ l, e.1 = CoreEvent.layerPixelsModified l := by
  intro e he
  unfold coreEmitPixelsModified at he
  rcases List.mem_cons.1 he with h1 | h2
  · left
    rw [h1]
  · right
    obtain ⟨l, _, hl⟩ := List.mem_map.1 h2
    exact ⟨l, by rw [← hl]⟩

/-- C10: `add_layer_or_modify_pixels(name, pixels, ...)` — (a) when a layer
with `name` exists and holds an image, the layer sequence, name index and
layer heap are untouched (in particular no `layer_adding`/`layer_added`
fires), only that image's pixel buffer is replaced, and a `pixels_modified`
notification is always emitted; (b) when the layer exists without an image,
a freshly constructed image is installed into it, again leaving the sequence
and index unchanged; (c) only when no layer with `name` exists is a new
layer appended to the sequence. -/
theorem C10_add_layer_or_modify_pixels :
    (∀ (s : CoreState) (name : String) (pixels : List (List Nat)) (pal : Option Nat)
       (vis : Option Visibility) (lid iid : Nat) (layer : ImageLayer) (img : Image),
      dictGet s.layerByName name = some lid →
      dictGet s.layerHeap lid = some layer →
      layer.image = some iid →
      dictGet s.imageHeap iid = some img →
      ∃ s' tr,
        addLayerOrModifyPixels s name pixels pal vis = some (s', lid, tr) ∧
        s'.layers = s.layers ∧ s'.layerByName = s.layerByName ∧
        s'.layerHeap = s.layerHeap ∧
        dictGet s'.imageHeap iid = some ({ img with pixels := pixels }) ∧
        tr.head? = some (CoreEvent.pixelsModified iid, s') ∧
        (∀ e ∈ tr, (∀ l i, e.1 ≠ CoreEvent.layerAdding l i) ∧
                   (∀ l i, e.1 ≠ CoreEvent.layerAdded l i))) ∧
    (∀ (s : CoreState) (name : String) (pixels : List (List Nat)) (pal : Option Nat)
       (vis : Option Visibility) (lid : Nat) (layer : ImageLayer),
      dictGet s.layerByName name = some lid →
      dictGet s.layerHeap lid = some layer →
      layer.image = none →
      ∃ s' tr l',
        addLayerOrModifyPixels s name pixels pal vis = some (s', lid, tr) ∧
        s'.layers = s.layers ∧ s'.layerByName = s.layerByName ∧
        dictGet s'.layerHeap lid = some l' ∧
        l'.image = some s.nextImageId ∧
        dictGet s'.imageHeap s.nextImageId
          = some ({ pixels := pixels, palette := pal, path := none } : Image)) ∧
    (∀ (s : CoreState) (name : String) (pixels : List (List Nat)) (pal : Option Nat)
       (vis : Option Visibility),
      dictGet s.layerByName name = none →
      ∃ s' lid tr,
        addLayerOrModifyPixels s name pixels pal vis = some (s', lid, tr) ∧
        lid = s.nextLayerId ∧
        s'.layers = s.layers ++ [lid]) := by
  refine ⟨?_, ?_, ?_⟩
  · intro s name pixels pal vis lid iid layer img hname hlayer himage himg
    simp only [addLayerOrModifyPixels, hname, hlayer, himage, himg]
    refine ⟨_, _, rfl, rfl, rfl, rfl, dictGet_dictSet_self _ _ _, rfl, ?_⟩
    intro e he
    constructor
    · intro l i
      rcases coreEmitPixelsModified_events _ iid e he with h1 | ⟨l2, h2⟩
      · rw [h1]
        simp
      · rw [h2]
        simp
    · intro l i
      rcases coreEmitPixelsModified_events _ iid e he with h1 | ⟨l2, h2⟩
      · rw [h1]
        simp
      · rw [h2]
        simp
  · intro s name pixels pal vis lid layer hname hlayer himage
    simp only [addLayerOrModifyPixels, hname, hlayer, himage]
    have hlay1 : dictGet (newImage s pixels pal).1.layerHeap lid = some layer := hlayer
    obtain ⟨l', hget, hid, hnm, hvis2, himg'⟩ := setImage_layerHeap_self
      (newImage s pixels pal).1 lid (some (newImage s pixels pal).2) layer hlay1
    obtain ⟨hl, hbn, hih, _, _⟩ := setImage_frame
      (newImage s pixels pal).1 lid (some (newImage s pixels pal).2)
    refine ⟨_, _, l', rfl, hl, hbn, hget, ?_, ?_⟩
    · rw [himg']
      rfl
    · rw [hih]
      exact dictGet_dictSet_self _ _ _
  · intro s name pixels pal vis hname
    simp only [addLayerOrModifyPixels, hname]
    unfold addLayerFromImage
    obtain ⟨l, hget, _, _⟩ := mkImageLayer_layerHeap_self
      (newImage s pixels pal).1 (some (newImage s pixels pal).2) name vis
    dsimp only
    have hlid := mkImageLayer_lid
      (newImage s pixels pal).1 (some (newImage s pixels pal).2) name vis
    have hget2 : dictGet
        (mkImageLayer (newImage s pixels pal).1 (some (newImage s pixels pal).2) name vis).1.layerHeap
        (mkImageLayer (newImage s pixels pal).1 (some (newImage s pixels pal).2) name vis).2.1
        = some l := by
      rw [hlid]
      exact hget
    rw [addLayer_eq _ _ l hget2]
    dsimp only
    refine ⟨_, _, _, rfl, hlid, ?_⟩
    have hfr := (mkImageLayer_frame
      (newImage s pixels pal).1 (some (newImage s pixels pal).2) name vis).1
    dsimp only
    rw [hfr]
    rfl

/-- C10 (witness): the three branches evaluated on the concrete state with a
layer `"m"` holding an image, a layer `"n"` holding none, and no layer
`"z"`. -/
theorem C10_witness :
    (∃ s' tr,
      addLayerOrModifyPixels c10State "m" [[9]] none none = some (s', 0, tr) ∧
      s'.layers = c10State.layers ∧ s'.layerByName = c10State.layerByName ∧
      s'.layerHeap = c10State.layerHeap ∧
      dictGet s'.imageHeap 0 = some ({ c10Img with pixels := [[9]] }) ∧
      tr.head? = some (CoreEvent.pixelsModified 0, s') ∧
      (∀ e ∈ tr, (∀ l i, e.1 ≠ CoreEvent.layerAdding l i) ∧
                 (∀ l i, e.1 ≠ CoreEvent.layerAdded l i))) ∧
    (∃ s' tr l',
      addLayerOrModifyPixels c10State "n" [[9]] none none = some (s', 1, tr) ∧
      s'.layers = c10State.layers ∧ s'.layerByName = c10State.layerByName ∧
      dictGet s'.layerHeap 1 = some l' ∧
      l'.image = some c10State.nextImageId ∧
      dictGet s'.imageHeap c10State.nextImageId
        = some ({ pixels := [[9]], palette := none, path := none } : Image)) ∧
    (∃ s' lid tr,
      addLayerOrModifyPixels c10State "z" [[9]] none none = some (s', lid, tr) ∧
      lid = c10State.nextLayerId ∧
      s'.layers = c10State.layers ++ [lid]) := by
  refine ⟨?_, ?_, ?_⟩
  · exact C10_add_layer_or_modify_pixels.1 c10State "m" [[9]] none none 0 0 c10LayerM c10Img
      (by decide) (by decide) (by decide) (by decide)
  · exact C10_add_layer_or_modify_pixels.2.1 c10State "n" [[9]] none none 1 c10LayerN
      (by decide) (by decide) (by decide)
  · exact C10_add_layer_or_modify_pixels.2.2 c10State "z" [[9]] none none (by decide)

end Vision
